import Mathlib

/-!
# Verification of the site-server search query engine and time-string parser

A shallow embedding, in Lean 4, of the structured query engine of
`kj800x/site-server`: the s-expression tokenizer, the recursive-descent
parser producing `SearchExpr`, the tree-walking evaluator (`src/search.rs`),
and the flexible time-string parser (`src/timestring.rs`) together with the
calendar and timezone arithmetic they rely on (`chrono` + `chrono_tz`,
timezone fixed to America/New_York as in `SEARCH_TIMEZONE`).

Modelling conventions:
* Rust `String`/`&str` values are embedded as `List Char` (`RStr`); `len()`
  is modelled as character count (all inputs considered here are ASCII, where
  byte length and character count agree).
* `to_lowercase` / case-insensitive regex matching are modelled by ASCII
  lowercasing (`asciiLowerChar`); the inputs exercised here contain no
  non-ASCII cased characters.  Rust-regex character classes `\d` / `\s` are
  modelled as ASCII digits and Unicode white space respectively.
* `chrono::DateTime<Tz>` values are embedded as their `timestamp_millis()`
  instant (an `Int`); chrono's sub-millisecond precision is dropped, which is
  invisible at the millisecond granularity of every operation modelled here.
* The America/New_York timezone is modelled by the post-2007 United States
  DST rule (EST = UTC-5, EDT = UTC-4, DST from 02:00 local on the second
  Sunday of March to 02:00 local on the first Sunday of November); theorems
  that quantify over dates carry hypotheses keeping them in years where that
  rule is the one in the tzdata tables.
* Machine integers (`i64`, `i32`, `u32`) are embedded as `Int`/`Nat`;
  explicit bounds (`i64Max`) appear exactly where the Rust code can reject an
  input through `str::parse` overflow, Rust `as i32` casts are modelled by
  wrapping truncation (`wrapI32`), chrono's representable-year range
  (`chronoMinYear`/`chronoMaxYear`, instants `dtMinMs`/`dtMaxMs`) bounds
  `with_year`, and theorems about relative durations carry range hypotheses
  keeping the chrono `Duration`/`DateTime` arithmetic inside its panic-free
  range.
* Fallible Rust code (`Option` chains via `?`, `Result`) becomes
  `Option`/`Except`; the one reachable panic (`expect` in
  `evaluate_search_expr`) is modelled by `Option.none` in the evaluator's
  result type.
-/

/-! ## Rust string primitives -/

/-- Rust strings, embedded as lists of characters. -/
abbrev RStr := List Char

/-- Coercion helper from Lean string literals to the `RStr` embedding. -/
def str (s : String) : RStr := s.data

/-- Rust `char::is_whitespace` (the Unicode `White_Space` property). -/
def rustIsWs (c : Char) : Bool :=
  (9 ≤ c.toNat && c.toNat ≤ 13) || c.toNat = 32 || c.toNat = 0x85 ||
  c.toNat = 0xa0 || c.toNat = 0x1680 ||
  (0x2000 ≤ c.toNat && c.toNat ≤ 0x200a) ||
  c.toNat = 0x2028 || c.toNat = 0x2029 || c.toNat = 0x202f ||
  c.toNat = 0x205f || c.toNat = 0x3000

/-- ASCII decimal digit (regex `\d` on the inputs considered here). -/
def isAsciiDigit (c : Char) : Bool := 48 ≤ c.toNat && c.toNat ≤ 57

/-- ASCII lowercasing of one character (model of Rust `to_lowercase`). -/
def asciiLowerChar (c : Char) : Char :=
  if 65 ≤ c.toNat ∧ c.toNat ≤ 90 then Char.ofNat (c.toNat + 32) else c

/-- ASCII lowercasing of a string (model of Rust `str::to_lowercase`). -/
def toLowerR (s : RStr) : RStr := s.map asciiLowerChar

/-- Drop trailing whitespace. -/
def dropEndWs (s : RStr) : RStr := (s.reverse.dropWhile rustIsWs).reverse

/-- Rust `str::trim`: drop leading and trailing whitespace. -/
def rustTrim (s : RStr) : RStr := dropEndWs (s.dropWhile rustIsWs)

/-- Rust `str::contains` (substring test). -/
def rstrContains (hay needle : RStr) : Bool :=
  match hay with
  | [] => needle = []
  | _ :: t => needle.isPrefixOf hay || rstrContains t needle

/-- Numeric value of an ASCII digit. -/
def digitVal (c : Char) : Nat := c.toNat - 48

/-- Value of a string of ASCII digits, most significant first. -/
def digitsVal (s : RStr) : Nat := s.foldl (fun a c => a * 10 + digitVal c) 0

/-- Largest `i64` value. -/
def i64Max : Int := 9223372036854775807

/-- Rust `as i32` on a wider integer: wrapping truncation to 32 bits. -/
def wrapI32 (n : Int) : Int := (n + 2 ^ 31) % 2 ^ 32 - 2 ^ 31

/-- Rust `str::parse::<i64>` on a plain (unsigned) digit capture: fails on
overflow past `i64::MAX`. The capture is already known to be all digits. -/
def parseCapI64 (ds : RStr) : Option Int :=
  if (digitsVal ds : Int) ≤ i64Max then some (digitsVal ds) else none

/-- Rust `str::parse::<i64>` on an arbitrary string: optional sign, at least
one digit, nothing else, and the value must fit in `i64`. -/
def parseI64 (s : RStr) : Option Int :=
  match s with
  | [] => none
  | c :: ds =>
    if c = '+' then
      if ds ≠ [] ∧ ds.all isAsciiDigit ∧ (digitsVal ds : Int) ≤ i64Max then
        some (digitsVal ds)
      else none
    else if c = '-' then
      if ds ≠ [] ∧ ds.all isAsciiDigit ∧ (digitsVal ds : Int) ≤ i64Max + 1 then
        some (-(digitsVal ds : Int))
      else none
    else
      if (c :: ds).all isAsciiDigit ∧ (digitsVal (c :: ds) : Int) ≤ i64Max then
        some (digitsVal (c :: ds))
      else none

/-- Take one expected character off the front. -/
def expectChar (c : Char) : RStr → Option RStr
  | x :: r => if x = c then some r else none
  | [] => none

/-- Greedy run of ASCII digits at the front (regex `\d+`). -/
def spanDigits (s : RStr) : RStr × RStr :=
  (s.takeWhile isAsciiDigit, s.dropWhile isAsciiDigit)

/-- Greedy run of whitespace at the front (regex `\s+`). -/
def spanWs (s : RStr) : RStr × RStr :=
  (s.takeWhile rustIsWs, s.dropWhile rustIsWs)

/-- Match a literal at the front of a string, returning the remainder. -/
def matchLit : RStr → RStr → Option RStr
  | [], s => some s
  | _, [] => none
  | l :: ls, c :: cs => if c = l then matchLit ls cs else none

/-! ## Proleptic Gregorian calendar (chrono's calendar arithmetic) -/

/-- Gregorian leap year. -/
def isLeap (y : Int) : Bool :=
  Int.emod y 4 = 0 && (Int.emod y 100 ≠ 0 || Int.emod y 400 = 0)

/-- Number of days in a month. -/
def daysInMonth (y m : Int) : Int :=
  if m = 2 then (if isLeap y then 29 else 28)
  else if m = 4 ∨ m = 6 ∨ m = 9 ∨ m = 11 then 30
  else 31

/-- Days since 1970-01-01 of the civil date `(y, m, d)` (Hinnant's
`days_from_civil`, the arithmetic underlying chrono's `NaiveDate`). -/
def daysFromCivil (y m d : Int) : Int :=
  let yy := if m ≤ 2 then y - 1 else y
  let era := Int.fdiv yy 400
  let yoe := yy - era * 400
  let mp := Int.emod (m + 9) 12
  let doy := Int.fdiv (153 * mp + 2) 5 + d - 1
  let doe := yoe * 365 + Int.fdiv yoe 4 - Int.fdiv yoe 100 + doy
  era * 146097 + doe - 719468

/-- Civil date `(y, m, d)` of a day count since 1970-01-01 (Hinnant's
`civil_from_days`). -/
def civilFromDays (z : Int) : Int × Int × Int :=
  let z' := z + 719468
  let era := Int.fdiv z' 146097
  let doe := z' - era * 146097
  let yoe := Int.fdiv (doe - Int.fdiv doe 1460 + Int.fdiv doe 36524 -
    Int.fdiv doe 146096) 365
  let y := yoe + era * 400
  let doy := doe - (365 * yoe + Int.fdiv yoe 4 - Int.fdiv yoe 100)
  let mp := Int.fdiv (5 * doy + 2) 153
  let d := doy - Int.fdiv (153 * mp + 2) 5 + 1
  let m := if mp < 10 then mp + 3 else mp - 9
  (if m ≤ 2 then y + 1 else y, m, d)

def msPerSecond : Int := 1000
def msPerMinute : Int := 60000
def msPerHour : Int := 3600000
def msPerDay : Int := 86400000
def msPerWeek : Int := 604800000

/-- chrono `Weekday::num_days_from_sunday` of a day count
(1970-01-01 was a Thursday). -/
def weekdayFromSunday (z : Int) : Int := Int.emod (z + 4) 7

/-! ## America/New_York (chrono_tz), post-2007 United States DST rule -/

/-- Day count of the second Sunday of March of year `y` (DST start day). -/
def dstStartDay (y : Int) : Int :=
  let m1 := daysFromCivil y 3 1
  m1 + Int.emod (-m1 - 4) 7 + 7

/-- Day count of the first Sunday of November of year `y` (DST end day). -/
def dstEndDay (y : Int) : Int :=
  let n1 := daysFromCivil y 11 1
  n1 + Int.emod (-n1 - 4) 7

/-- UTC instant (ms) at which DST begins in year `y`
(02:00 EST = 07:00 UTC on the second Sunday of March). -/
def nyDstStartMs (y : Int) : Int := dstStartDay y * msPerDay + 7 * msPerHour

/-- UTC instant (ms) at which DST ends in year `y`
(02:00 EDT = 06:00 UTC on the first Sunday of November). -/
def nyDstEndMs (y : Int) : Int := dstEndDay y * msPerDay + 6 * msPerHour

/-- Calendar year (UTC) containing the UTC instant `t`; DST transitions are
mid-year, so the UTC year is the right year for the DST window lookup. -/
def utcYear (t : Int) : Int := (civilFromDays (Int.fdiv t msPerDay)).1

/-- Whether DST is in effect in America/New_York at UTC instant `t`. -/
def nyIsDst (t : Int) : Bool :=
  nyDstStartMs (utcYear t) ≤ t && t < nyDstEndMs (utcYear t)

def estOffsetMs : Int := -5 * msPerHour
def edtOffsetMs : Int := -4 * msPerHour

/-- UTC offset (ms) of America/New_York at UTC instant `t`. -/
def nyOffset (t : Int) : Int := if nyIsDst t then edtOffsetMs else estOffsetMs

/-- Local-clock milliseconds (local civil time on a linear scale) at UTC
instant `t`. -/
def nyLocalMs (t : Int) : Int := t + nyOffset t

/-- chrono_tz `Tz::from_local_datetime(..).single()`: resolve a local civil
time (as local-clock ms) to the unique UTC instant presenting that local
time, or `none` when the local time is skipped or ambiguous. -/
def nyFromLocalMs (lms : Int) : Option Int :=
  let tEst := lms - estOffsetMs
  let tEdt := lms - edtOffsetMs
  match (!nyIsDst tEst : Bool), (nyIsDst tEdt : Bool) with
  | true, false => some tEst
  | false, true => some tEdt
  | _, _ => none

/-- Local civil date of UTC instant `t` in America/New_York. -/
def localDate (t : Int) : Int × Int × Int :=
  civilFromDays (Int.fdiv (nyLocalMs t) msPerDay)

/-- chrono `Datelike::year` of a `DateTime<Tz>` (tz = America/New_York). -/
def dtYear (t : Int) : Int := (localDate t).1

/-- chrono `Datelike::month`. -/
def dtMonth (t : Int) : Int := (localDate t).2.1

/-- chrono `Datelike::day`. -/
def dtDay (t : Int) : Int := (localDate t).2.2

/-- Local time of day, in ms since local midnight. -/
def dtTimeOfDayMs (t : Int) : Int := Int.emod (nyLocalMs t) msPerDay

/-- chrono `weekday().num_days_from_sunday()` of the local date. -/
def dtWeekdayFromSunday (t : Int) : Int :=
  weekdayFromSunday (Int.fdiv (nyLocalMs t) msPerDay)

/-- chrono_tz `Tz::with_ymd_and_hms(..).single()`: build the unique
`DateTime<Tz>` with the given local fields, `none` when the civil fields are
invalid or the local time is skipped or ambiguous. -/
def nyWithYmdHms (y m d h mi s : Int) : Option Int :=
  if 1 ≤ m ∧ m ≤ 12 ∧ 1 ≤ d ∧ d ≤ daysInMonth y m ∧
      0 ≤ h ∧ h < 24 ∧ 0 ≤ mi ∧ mi < 60 ∧ 0 ≤ s ∧ s < 60 then
    nyFromLocalMs (daysFromCivil y m d * msPerDay +
      h * msPerHour + mi * msPerMinute + s * msPerSecond)
  else none

/-- chrono `NaiveDate::MIN.year()`: `i32::MIN >> 13`. -/
def chronoMinYear : Int := -262144

/-- chrono `NaiveDate::MAX.year()`: `i32::MAX >> 13`. -/
def chronoMaxYear : Int := 262143

/-- First representable chrono instant, in ms: midnight of
`chronoMinYear`-01-01. -/
def dtMinMs : Int := daysFromCivil chronoMinYear 1 1 * msPerDay

/-- Last representable chrono instant at ms precision: the last ms of
`chronoMaxYear`-12-31. -/
def dtMaxMs : Int := (daysFromCivil chronoMaxYear 12 31 + 1) * msPerDay - 1

/-- chrono `DateTime::with_year`: same local month, day and time of day in
year `y2`, re-resolved in the timezone; `none` when `y2` is outside chrono's
representable years, the new date is invalid, or the new local time is
skipped or ambiguous. -/
def dtWithYear (t y2 : Int) : Option Int :=
  if y2 < chronoMinYear ∨ chronoMaxYear < y2 then none else
  let md := localDate t
  if md.2.2 ≤ daysInMonth y2 md.2.1 then
    nyFromLocalMs (daysFromCivil y2 md.2.1 md.2.2 * msPerDay + dtTimeOfDayMs t)
  else none

/-- chrono `DateTime::with_month`: same local year, day and time of day in
month `m2`, re-resolved in the timezone. -/
def dtWithMonth (t m2 : Int) : Option Int :=
  let md := localDate t
  if 1 ≤ m2 ∧ m2 ≤ 12 ∧ md.2.2 ≤ daysInMonth md.1 m2 then
    nyFromLocalMs (daysFromCivil md.1 m2 md.2.2 * msPerDay + dtTimeOfDayMs t)
  else none

/-! ## `timestring::TimeSpec` -/

namespace timestring

/-- A parsed time specification: a moment or an inclusive range, in
milliseconds since the epoch (`timestring::TimeSpec`). -/
inductive TimeSpec where
  /-- A specific moment in time (ms since epoch). -/
  | Moment (ts : Int)
  /-- An inclusive range; the Rust fields are `start` and `end`
  (`end` is a Lean keyword, hence `start`/`stop` here). -/
  | Range (start stop : Int)
  deriving DecidableEq, Repr

/-- `TimeSpec::for_after`: the instant for "after" comparisons. -/
def TimeSpec.for_after : TimeSpec → Int
  | .Moment ts => ts
  | .Range _ stop => stop

/-- `TimeSpec::for_before`: the instant for "before" comparisons. -/
def TimeSpec.for_before : TimeSpec → Int
  | .Moment ts => ts
  | .Range start _ => start

/-- `TimeSpec::is_range`. -/
def TimeSpec.is_range : TimeSpec → Bool
  | .Moment _ => false
  | .Range _ _ => true

/-- `TimeSpec::contains`: equality for a moment, inclusive bounds for a
range. -/
def TimeSpec.contains : TimeSpec → Int → Bool
  | .Moment ts, x => x = ts
  | .Range start stop, x => start ≤ x && x ≤ stop

end timestring

/-! ## `timestring::parse` and its sub-parsers -/

namespace timestring

/-- Two ASCII digits to a number. -/
def dig2 (a b : Char) : Option Int :=
  if isAsciiDigit a ∧ isAsciiDigit b then
    some ((10 * digitVal a + digitVal b : Nat) : Int)
  else none

/-- Four ASCII digits to a number. -/
def dig4 (a b c d : Char) : Option Int :=
  if isAsciiDigit a ∧ isAsciiDigit b ∧ isAsciiDigit c ∧ isAsciiDigit d then
    some ((digitsVal [a, b, c, d] : Nat) : Int)
  else none

/-- Milliseconds denoted by an RFC3339 fractional-seconds digit run
(truncated to millisecond precision, as `timestamp_millis` does). -/
def fracMsVal (ds : RStr) : Int :=
  (digitsVal (ds.take 3 ++ List.replicate (3 - ds.length) '0') : Nat)

/-- RFC3339 numeric UTC offset or `Z`, in ms. -/
def parseTzOff (s : RStr) : Option Int :=
  match s with
  | ['Z'] => some 0
  | ['z'] => some 0
  | [sgn, h1, h2, ':', m1, m2] =>
    if sgn = '+' ∨ sgn = '-' then
      match dig2 h1 h2, dig2 m1 m2 with
      | some hh, some mm =>
        if hh ≤ 23 ∧ mm ≤ 59 then
          some ((if sgn = '-' then -1 else 1) * (hh * 60 + mm) * msPerMinute)
        else none
      | _, _ => none
    else none
  | _ => none

/-- chrono `DateTime::parse_from_rfc3339`, at millisecond precision:
`YYYY-MM-DDThh:mm:ss[.frac](Z|±hh:mm)`, returning `timestamp_millis`. -/
def parseRfc3339 (input : RStr) : Option Int :=
  let sdY := spanDigits input
  if sdY.1.length ≠ 4 then none else
  match expectChar '-' sdY.2 with
  | none => none
  | some rM =>
  let sdM := spanDigits rM
  if sdM.1.length ≠ 2 then none else
  match expectChar '-' sdM.2 with
  | none => none
  | some rD =>
  let sdD := spanDigits rD
  if sdD.1.length ≠ 2 then none else
  match sdD.2 with
  | [] => none
  | sep :: rH =>
  if ¬(sep = 'T' ∨ sep = 't' ∨ sep = ' ') then none else
  let sdH := spanDigits rH
  if sdH.1.length ≠ 2 then none else
  match expectChar ':' sdH.2 with
  | none => none
  | some rMi =>
  let sdMi := spanDigits rMi
  if sdMi.1.length ≠ 2 then none else
  match expectChar ':' sdMi.2 with
  | none => none
  | some rS =>
  let sdS := spanDigits rS
  if sdS.1.length ≠ 2 then none else
  let y : Int := (digitsVal sdY.1 : Nat)
  let m : Int := (digitsVal sdM.1 : Nat)
  let d : Int := (digitsVal sdD.1 : Nat)
  let h : Int := (digitsVal sdH.1 : Nat)
  let mi : Int := (digitsVal sdMi.1 : Nat)
  let s : Int := (digitsVal sdS.1 : Nat)
  if ¬(1 ≤ m ∧ m ≤ 12 ∧ 1 ≤ d ∧ d ≤ daysInMonth y m ∧
      h ≤ 23 ∧ mi ≤ 59 ∧ s ≤ 59) then none else
  let base := daysFromCivil y m d * msPerDay + h * msPerHour +
    mi * msPerMinute + s * msPerSecond
  match sdS.2 with
  | '.' :: fr =>
    let sdF := spanDigits fr
    if sdF.1.length = 0 then none else
    (parseTzOff sdF.2).map (fun off => base + fracMsVal sdF.1 - off)
  | rest => (parseTzOff rest).map (fun off => base - off)

/-- Fuel-driven loop `while month <= 0 { month += 12; year -= 1 }` from
`try_parse_relative_duration`'s month branch. -/
def normMonthGo : Nat → Int → Int → Int × Int
  | 0, y, m => (y, m)
  | Nat.succ f, y, m => if m ≤ 0 then normMonthGo f (y - 1) (m + 12) else (y, m)

/-- The month-borrowing loop; `(1 - m).toNat` iterations are always enough
for the loop to terminate with a positive month. -/
def normMonth (y m : Int) : Int × Int := normMonthGo (1 - m).toNat y m

/-- The unit alternation of the relative-duration regexes, in source order. -/
def unitList : List RStr :=
  [str "second", str "minute", str "hour", str "day", str "week",
   str "month", str "year"]

/-- Match one of the duration units at the front of a string. -/
def matchUnit : List RStr → RStr → Option (RStr × RStr)
  | [], _ => none
  | u :: us, s =>
    match matchLit u s with
    | some r => some (u, r)
    | none => matchUnit us s

/-- The per-unit target computation of `try_parse_relative_duration`'s
`"<N> <unit> ago"` branch: fixed-length subtraction for second through week,
calendar-field walking (`with_year` then `with_month`) for month and year
after the source's `n as i32` wrapping cast.  The fixed-length value models
the code only inside chrono's panic-free domain — `Duration::<unit>(n)`
panics past `n * msPer<unit> ≤ i64Max` and `DateTime - Duration` panics when
the result leaves `[dtMinMs, dtMaxMs]` — and the month/year `i32`
subtractions themselves can overflow (a debug panic / release wrap) in a
narrow band; theorems about these branches carry the corresponding range
hypotheses. -/
def applyUnit (now : Int) (u : RStr) (n : Int) : Option Int :=
  if u = str "second" then some (now - n * msPerSecond)
  else if u = str "minute" then some (now - n * msPerMinute)
  else if u = str "hour" then some (now - n * msPerHour)
  else if u = str "day" then some (now - n * msPerDay)
  else if u = str "week" then some (now - n * msPerWeek)
  else if u = str "month" then
    let ym := normMonth (dtYear now) (dtMonth now - wrapI32 n)
    (dtWithYear now ym.1).bind (fun t1 => dtWithMonth t1 ym.2)
  else if u = str "year" then dtWithYear now (dtYear now - wrapI32 n)
  else none

/-- The per-unit target computation of the `"a <unit> ago"` branch (the
month case uses a single `if` instead of a loop, as in the source). -/
def applyUnitOne (now : Int) (u : RStr) : Option Int :=
  if u = str "second" then some (now - msPerSecond)
  else if u = str "minute" then some (now - msPerMinute)
  else if u = str "hour" then some (now - msPerHour)
  else if u = str "day" then some (now - msPerDay)
  else if u = str "week" then some (now - msPerWeek)
  else if u = str "month" then
    let m0 := dtMonth now - 1
    let ym : Int × Int :=
      if m0 ≤ 0 then (dtYear now - 1, m0 + 12) else (dtYear now, m0)
    (dtWithYear now ym.1).bind (fun t1 => dtWithMonth t1 ym.2)
  else if u = str "year" then dtWithYear now (dtYear now - 1)
  else none

/-- Regex `^(\d+)\s+(second|minute|hour|day|week|month|year)s?\s+ago$`
followed by the target computation. -/
def relNumBranch (input : RStr) (now : Int) : Option Int :=
  match spanDigits input with
  | ([], _) => none
  | (ds, rest1) =>
    match spanWs rest1 with
    | ([], _) => none
    | (_, rest2) =>
      match matchUnit unitList rest2 with
      | none => none
      | some (u, rest3) =>
        let rest3' := match rest3 with
          | 's' :: r => r
          | r => r
        match spanWs rest3' with
        | ([], _) => none
        | (_, rest4) =>
          if rest4 = str "ago" then
            match parseCapI64 ds with
            | none => none
            | some n => applyUnit now u n
          else none

/-- Regex `^a\s+(second|minute|hour|day|week|month|year)\s+ago$` followed by
the target computation. -/
def relOneBranch (input : RStr) (now : Int) : Option Int :=
  match input with
  | [] => none
  | c :: rest0 =>
    if c = 'a' then
      match spanWs rest0 with
      | ([], _) => none
      | (_, rest1) =>
        match matchUnit unitList rest1 with
        | none => none
        | some (u, rest2) =>
          match spanWs rest2 with
          | ([], _) => none
          | (_, rest3) =>
            if rest3 = str "ago" then applyUnitOne now u else none
    else none

/-- `timestring::try_parse_relative_duration`.  (When the first regex
matches, the source's `?` operators return `None` from the whole function on
a failed capture-parse or calendar computation; the second regex needs a
leading `a` where the first needs a leading digit, so no input matches both
and sequential `orElse` is equivalent.) -/
def try_parse_relative_duration (input : RStr) (now : Int) : Option TimeSpec :=
  match relNumBranch input now with
  | some t => some (.Moment t)
  | none =>
    match relOneBranch input now with
    | some t => some (.Moment t)
    | none => none

/-- `timestring::try_parse_named_period`. -/
def try_parse_named_period (input : RStr) (now : Int) : Option TimeSpec :=
  if input = str "last month" then
    let m0 := dtMonth now - 1
    let ym : Int × Int :=
      if m0 ≤ 0 then (dtYear now - 1, 12) else (dtYear now, m0)
    match nyWithYmdHms ym.1 ym.2 1 0 0 0 with
    | none => none
    | some start =>
      let em : Int := if ym.2 = 12 then 1 else ym.2 + 1
      let ey : Int := if ym.2 = 12 then ym.1 + 1 else ym.1
      match nyWithYmdHms ey em 1 0 0 0 with
      | none => none
      | some e => some (.Range start (e - 1))
  else if input = str "this month" then
    match nyWithYmdHms (dtYear now) (dtMonth now) 1 0 0 0 with
    | none => none
    | some start =>
      let nm : Int := if dtMonth now = 12 then 1 else dtMonth now + 1
      let ny : Int := if dtMonth now = 12 then dtYear now + 1 else dtYear now
      match nyWithYmdHms ny nm 1 0 0 0 with
      | none => none
      | some e => some (.Range start (e - 1))
  else if input = str "last year" then
    let y := dtYear now - 1
    match nyWithYmdHms y 1 1 0 0 0, nyWithYmdHms (y + 1) 1 1 0 0 0 with
    | some start, some e => some (.Range start (e - 1))
    | _, _ => none
  else if input = str "this year" then
    let y := dtYear now
    match nyWithYmdHms y 1 1 0 0 0, nyWithYmdHms (y + 1) 1 1 0 0 0 with
    | some start, some e => some (.Range start (e - 1))
    | _, _ => none
  else if input = str "today" then
    match nyWithYmdHms (dtYear now) (dtMonth now) (dtDay now) 0 0 0 with
    | none => none
    | some start => some (.Range start (start + msPerDay - 1))
  else if input = str "yesterday" then
    let yd := now - msPerDay
    match nyWithYmdHms (dtYear yd) (dtMonth yd) (dtDay yd) 0 0 0 with
    | none => none
    | some start => some (.Range start (start + msPerDay - 1))
  else if input = str "last week" then
    let thisSunday := now - dtWeekdayFromSunday now * msPerDay
    let lastSunday := thisSunday - 7 * msPerDay
    match nyWithYmdHms (dtYear lastSunday) (dtMonth lastSunday)
        (dtDay lastSunday) 0 0 0 with
    | none => none
    | some start =>
      match nyWithYmdHms (dtYear thisSunday) (dtMonth thisSunday)
          (dtDay thisSunday) 0 0 0 with
      | none => none
      | some e => some (.Range start (e - 1))
  else if input = str "this week" then
    let sunday := now - dtWeekdayFromSunday now * msPerDay
    let nextSunday := sunday + 7 * msPerDay
    match nyWithYmdHms (dtYear sunday) (dtMonth sunday) (dtDay sunday) 0 0 0 with
    | none => none
    | some start =>
      match nyWithYmdHms (dtYear nextSunday) (dtMonth nextSunday)
          (dtDay nextSunday) 0 0 0 with
      | none => none
      | some e => some (.Range start (e - 1))
  else none

/-- `timestring::month_name_to_num`. -/
def month_name_to_num (name : RStr) : Option Int :=
  if name = str "january" ∨ name = str "jan" then some 1
  else if name = str "february" ∨ name = str "feb" then some 2
  else if name = str "march" ∨ name = str "mar" then some 3
  else if name = str "april" ∨ name = str "apr" then some 4
  else if name = str "may" then some 5
  else if name = str "june" ∨ name = str "jun" then some 6
  else if name = str "july" ∨ name = str "jul" then some 7
  else if name = str "august" ∨ name = str "aug" then some 8
  else if name = str "september" ∨ name = str "sep" ∨ name = str "sept" then some 9
  else if name = str "october" ∨ name = str "oct" then some 10
  else if name = str "november" ∨ name = str "nov" then some 11
  else if name = str "december" ∨ name = str "dec" then some 12
  else none

/-- `timestring::try_parse_month_name`: the most recent completed or ongoing
instance of the named month. -/
def try_parse_month_name (input : RStr) (now : Int) : Option TimeSpec :=
  match month_name_to_num input with
  | none => none
  | some mn =>
    let year := if mn > dtMonth now then dtYear now - 1 else dtYear now
    match nyWithYmdHms year mn 1 0 0 0 with
    | none => none
    | some start =>
      let nm : Int := if mn = 12 then 1 else mn + 1
      let ny : Int := if mn = 12 then year + 1 else year
      match nyWithYmdHms ny nm 1 0 0 0 with
      | none => none
      | some e => some (.Range start (e - 1))

/-- `timestring::try_parse_year_only`: regex `^(\d{4})$`. -/
def try_parse_year_only (input : RStr) : Option TimeSpec :=
  if input.length = 4 ∧ input.all isAsciiDigit then
    let y : Int := (digitsVal input : Nat)
    match nyWithYmdHms y 1 1 0 0 0, nyWithYmdHms (y + 1) 1 1 0 0 0 with
    | some s, some e => some (.Range s (e - 1))
    | _, _ => none
  else none

/-- The regex `^(\d{1,2})/(\d{1,2})/(\d{4})$` of
`try_parse_american_date`, with its three captures. -/
def americanMatch (input : RStr) : Option (Int × Int × Int) :=
  let sd1 := spanDigits input
  if 1 ≤ sd1.1.length ∧ sd1.1.length ≤ 2 then
    match expectChar '/' sd1.2 with
    | none => none
    | some r1 =>
      let sd2 := spanDigits r1
      if 1 ≤ sd2.1.length ∧ sd2.1.length ≤ 2 then
        match expectChar '/' sd2.2 with
        | none => none
        | some r2 =>
          let sd3 := spanDigits r2
          if sd3.1.length = 4 ∧ sd3.2 = [] then
            some (((digitsVal sd1.1 : Nat) : Int), ((digitsVal sd2.1 : Nat) : Int),
              ((digitsVal sd3.1 : Nat) : Int))
          else none
      else none
  else none

/-- `timestring::try_parse_american_date`: `M/D/YYYY` as a full local day,
with only the 1-12 / 1-31 range check before the timezone lookup. -/
def try_parse_american_date (input : RStr) : Option TimeSpec :=
  match americanMatch input with
  | none => none
  | some (m, d, y) =>
    if m < 1 ∨ m > 12 ∨ d < 1 ∨ d > 31 then none
    else
      match nyWithYmdHms y m d 0 0 0 with
      | none => none
      | some s => some (.Range s (s + msPerDay - 1))

/-- The month-name alternation of `try_parse_human_date`'s regex, in source
order. -/
def humanMonthAlt : List RStr :=
  [str "january", str "february", str "march", str "april", str "may",
   str "june", str "july", str "august", str "september", str "october",
   str "november", str "december", str "jan", str "feb", str "mar",
   str "apr", str "jun", str "jul", str "aug", str "sep", str "sept",
   str "oct", str "nov", str "dec"]

/-- Tail of the human-date regex after the day digits:
`(?:st|nd|rd|th)?,?\s+(\d{4})$`, returning the year capture. -/
def humanYearTail (s : RStr) : Option Int :=
  let s1 := match matchLit (str "st") s with
    | some r => r
    | none => match matchLit (str "nd") s with
      | some r => r
      | none => match matchLit (str "rd") s with
        | some r => r
        | none => match matchLit (str "th") s with
          | some r => r
          | none => s
  let s2 := match s1 with
    | ',' :: r => r
    | r => r
  match spanWs s2 with
  | ([], _) => none
  | (_, s3) =>
    match s3 with
    | [a, b, c, d] =>
      if isAsciiDigit a ∧ isAsciiDigit b ∧ isAsciiDigit c ∧ isAsciiDigit d then
        some ((digitsVal [a, b, c, d] : Nat))
      else none
    | _ => none

/-- After a month name: `\s+(\d{1,2})` then the year tail, returning the day
and year captures. -/
def humanDayYear (s : RStr) : Option (Int × Int) :=
  match spanWs s with
  | ([], _) => none
  | (_, s1) =>
    match spanDigits s1 with
    | ([], _) => none
    | (ds, s2) =>
      if ds.length ≤ 2 then
        match humanYearTail s2 with
        | none => none
        | some y => some ((digitsVal ds : Nat), y)
      else none

/-- Try each alternative of the month-name alternation (the regex engine's
backtracking over the alternation, each branch being deterministic). -/
def humanMatch : List RStr → RStr → Option (Int × Int × Int)
  | [], _ => none
  | nm :: nms, s =>
    match matchLit nm s with
    | some r =>
      match humanDayYear r with
      | some (d, y) => some ((month_name_to_num nm).getD 0, d, y)
      | none => humanMatch nms s
    | none => humanMatch nms s

/-- `timestring::try_parse_human_date`: `"Jan 15, 2025"` and friends, as a
full local day (case-insensitive regex modelled by ASCII lowercasing). -/
def try_parse_human_date (input : RStr) : Option TimeSpec :=
  match humanMatch humanMonthAlt (toLowerR input) with
  | none => none
  | some (m, d, y) =>
    if d < 1 ∨ d > 31 then none
    else
      match nyWithYmdHms y m d 0 0 0 with
      | none => none
      | some s => some (.Range s (s + msPerDay - 1))

/-- `timestring::try_parse_iso_date`:
`NaiveDate::parse_from_str(input, "%Y-%m-%d")` (which checks real calendar
validity) then the full local day. -/
def try_parse_iso_date (input : RStr) : Option TimeSpec :=
  let sd1 := spanDigits input
  if 1 ≤ sd1.1.length ∧ sd1.1.length ≤ 4 then
    match expectChar '-' sd1.2 with
    | none => none
    | some r1 =>
      let sd2 := spanDigits r1
      if 1 ≤ sd2.1.length ∧ sd2.1.length ≤ 2 then
        match expectChar '-' sd2.2 with
        | none => none
        | some r2 =>
          let sd3 := spanDigits r2
          if 1 ≤ sd3.1.length ∧ sd3.1.length ≤ 2 ∧ sd3.2 = [] then
            let y : Int := (digitsVal sd1.1 : Nat)
            let m : Int := (digitsVal sd2.1 : Nat)
            let d : Int := (digitsVal sd3.1 : Nat)
            if 1 ≤ m ∧ m ≤ 12 ∧ 1 ≤ d ∧ d ≤ daysInMonth y m then
              match nyWithYmdHms y m d 0 0 0 with
              | none => none
              | some s => some (.Range s (s + msPerDay - 1))
            else none
          else none
      else none
  else none

/-- `timestring::parse`: trim, lowercase, then try each dialect in source
order; the error is the `"Could not parse time string: "` message. -/
def parse (input : RStr) (now : Int) : Except RStr TimeSpec :=
  let input := rustTrim input
  let lower := toLowerR input
  match parseRfc3339 input with
  | some t => .ok (.Moment t)
  | none =>
  match try_parse_relative_duration lower now with
  | some spec => .ok spec
  | none =>
  match try_parse_named_period lower now with
  | some spec => .ok spec
  | none =>
  match try_parse_month_name lower now with
  | some spec => .ok spec
  | none =>
  match try_parse_year_only input with
  | some spec => .ok spec
  | none =>
  match (if input.length > 4 then parseI64 input else none) with
  | some ts => .ok (.Moment ts)
  | none =>
  match try_parse_american_date input with
  | some spec => .ok spec
  | none =>
  match try_parse_human_date input with
  | some spec => .ok spec
  | none =>
  match try_parse_iso_date input with
  | some spec => .ok spec
  | none => .error (str "Could not parse time string: " ++ input)

end timestring

/-! ## `search.rs`: tokens, errors, AST -/

namespace search

/-- The fixed search timezone (`SEARCH_TIMEZONE = America/New_York`) is the
timezone baked into the `ny*` functions; `now` values are instants (ms). -/
inductive Token where
  | OpenParen
  | CloseParen
  | String (s : RStr)
  deriving DecidableEq, Repr

/-- `search::ParseError`. -/
inductive ParseError where
  | UnexpectedToken (t : RStr)
  | UnexpectedEnd
  | InvalidFunction (fn : RStr)
  | InvalidArgument (arg : RStr)
  | InvalidTimestamp (ts : RStr)
  deriving DecidableEq, Repr

/-- `search::SearchExpr`.  The Rust variant `Type` is `Typ` here
(`Type` is a Lean keyword). -/
inductive SearchExpr where
  | And (exprs : List SearchExpr)
  | Or (exprs : List SearchExpr)
  | Not (expr : SearchExpr)
  | Tag (s : RStr)
  | Typ (s : RStr)
  | Site (s : RStr)
  | Fulltext (s : RStr)
  | Title (s : RStr)
  | Meta (s : RStr)
  | Desc (s : RStr)
  | Url (s : RStr)
  | After (s : RStr)
  | Before (s : RStr)
  | During (s : RStr)
  deriving Repr

/-- One character of Rust's `Debug` escaping for strings (quote and
backslash; other escapes do not occur in the inputs considered). -/
def debugEscChar (c : Char) : RStr :=
  if c = '"' ∨ c = '\\' then ['\\', c] else [c]

/-- Rust `Debug` rendering of a string. -/
def debugStr (s : RStr) : RStr :=
  '"' :: s.foldr (fun c acc => debugEscChar c ++ acc) ['"']

/-- Rust `Debug` rendering of a `Token`. -/
def Token.debugFmt : Token → RStr
  | .OpenParen => str "OpenParen"
  | .CloseParen => str "CloseParen"
  | .String s => str "String(" ++ debugStr s ++ str ")"

def sepCommaSpace : List RStr → RStr
  | [] => []
  | [x] => x
  | x :: xs => x ++ str ", " ++ sepCommaSpace xs

/-- Rust `Debug` rendering of a token slice. -/
def debugTokens (ts : List Token) : RStr :=
  '[' :: sepCommaSpace (ts.map Token.debugFmt) ++ [']']

/-! ## Tokenizer -/

/-- Flush the bare-word buffer: emit `Token::String(trimmed)` only when the
trimmed buffer is non-empty. -/
def flushBare (toks : List Token) (cur : RStr) : List Token :=
  if rustTrim cur ≠ [] then toks ++ [Token.String (rustTrim cur)] else toks

/-- The character loop of `search::tokenize`, with the source's
state: emitted tokens, current buffer, in-string flag, escape flag.
The match arms appear in source order. -/
def tokenizeGo : List Char → List Token → RStr → Bool → Bool →
    Except ParseError (List Token)
  | [], toks, cur, inString, _ =>
    if inString then .error .UnexpectedEnd
    else .ok (flushBare toks cur)
  | c :: rest, toks, cur, inString, escape =>
    if escape then tokenizeGo rest toks (cur ++ [c]) inString false
    else if c = '\\' ∧ inString then tokenizeGo rest toks cur inString true
    else if c = '"' then
      if inString then tokenizeGo rest (toks ++ [Token.String cur]) [] false false
      else tokenizeGo rest toks cur true false
    else if c = '(' ∧ ¬inString then
      tokenizeGo rest (flushBare toks cur ++ [Token.OpenParen]) [] false false
    else if c = ')' ∧ ¬inString then
      tokenizeGo rest (flushBare toks cur ++ [Token.CloseParen]) [] false false
    else if inString then tokenizeGo rest toks (cur ++ [c]) inString false
    else if rustIsWs c then tokenizeGo rest (flushBare toks cur) [] false false
    else tokenizeGo rest toks (cur ++ [c]) inString false

/-- `search::tokenize`. -/
def tokenize (input : RStr) : Except ParseError (List Token) :=
  tokenizeGo input [] [] false false

/-! ## Recursive-descent parser -/

/-- The leaf predicate names of the grammar. -/
def leafNames : List RStr :=
  [str "tag", str "type", str "site", str "fulltext", str "title",
   str "meta", str "desc", str "url", str "after", str "before", str "during"]

/-- Build a leaf `SearchExpr` after the single-argument shape has been
checked: the per-function semantic validation of `parse_expr` (enumerated
`type` values; `after`/`before`/`during` time strings validated by
`timestring::parse` against the parse-time `now`).  The final branch is the
source's `unreachable!()`. -/
def buildLeaf (now : Int) (lowerName fname arg : RStr) :
    Except ParseError SearchExpr :=
  if lowerName = str "tag" then .ok (.Tag arg)
  else if lowerName = str "type" then
    let typeLower := toLowerR arg
    if typeLower ≠ str "image" ∧ typeLower ≠ str "video" ∧
        typeLower ≠ str "text" then
      .error (.InvalidArgument
        (str "type must be 'image', 'video', or 'text', got: " ++ arg))
    else .ok (.Typ typeLower)
  else if lowerName = str "site" then .ok (.Site arg)
  else if lowerName = str "fulltext" then .ok (.Fulltext arg)
  else if lowerName = str "title" then .ok (.Title arg)
  else if lowerName = str "meta" then .ok (.Meta arg)
  else if lowerName = str "desc" then .ok (.Desc arg)
  else if lowerName = str "url" then .ok (.Url arg)
  else if lowerName = str "after" then
    match timestring.parse arg now with
    | .ok _ => .ok (.After arg)
    | .error _ => .error (.InvalidTimestamp arg)
  else if lowerName = str "before" then
    match timestring.parse arg now with
    | .ok _ => .ok (.Before arg)
    | .error _ => .error (.InvalidTimestamp arg)
  else if lowerName = str "during" then
    match timestring.parse arg now with
    | .ok spec =>
      if spec.is_range then .ok (.During arg)
      else .error (.InvalidArgument
        (str "during requires a time range, not a specific moment: " ++ arg))
    | .error _ => .error (.InvalidTimestamp arg)
  else .error (.InvalidFunction fname)

mutual

/-- `search::parse_expr`, fuel-indexed, consuming tokens from the front (the
source's index `pos` into `tokens` is the length of the already-consumed
prefix; `tokens[pos..]` is the list passed here).  Fuel `tokens.length + 1`
always suffices (`parseExprF_fuel_irrelevant`). -/
def parseExprF : Nat → Int → List Token → Except ParseError (SearchExpr × List Token)
  | 0, _, _ => .error .UnexpectedEnd
  | Nat.succ f, now, tokens =>
    match tokens with
    | [] => .error .UnexpectedEnd
    | Token.String s :: _ =>
      .error (.UnexpectedToken (str "Unexpected string token at top level: " ++ s))
    | Token.CloseParen :: _ =>
      .error (.UnexpectedToken (str "Unexpected ')'"))
    | Token.OpenParen :: rest =>
      match rest with
      | [] => .error .UnexpectedEnd
      | Token.OpenParen :: _ =>
        .error (.UnexpectedToken (Token.debugFmt Token.OpenParen))
      | Token.CloseParen :: _ =>
        .error (.UnexpectedToken (Token.debugFmt Token.CloseParen))
      | Token.String fname :: rest2 =>
        let lowerName := toLowerR fname
        if lowerName = str "and" then
          match parseArgsF f now rest2 with
          | .error e => .error e
          | .ok (args, rem) =>
            if args.isEmpty then
              .error (.InvalidArgument (str "and requires at least one argument"))
            else .ok (.And args, rem)
        else if lowerName = str "or" then
          match parseArgsF f now rest2 with
          | .error e => .error e
          | .ok (args, rem) =>
            if args.isEmpty then
              .error (.InvalidArgument (str "or requires at least one argument"))
            else .ok (.Or args, rem)
        else if lowerName = str "not" then
          match parseExprF f now rest2 with
          | .error e => .error e
          | .ok (e, rem) =>
            match rem with
            | Token.CloseParen :: rem2 => .ok (.Not e, rem2)
            | _ => .error (.InvalidArgument (str "not requires exactly one argument"))
        else if leafNames.contains lowerName then
          match rest2 with
          | [] => .error .UnexpectedEnd
          | Token.OpenParen :: _ =>
            .error (.InvalidArgument (fname ++ str " requires a string argument"))
          | Token.CloseParen :: _ =>
            .error (.InvalidArgument (fname ++ str " requires an argument"))
          | Token.String arg :: rest3 =>
            match rest3 with
            | Token.CloseParen :: rest4 =>
              match buildLeaf now lowerName fname arg with
              | .error e => .error e
              | .ok e => .ok (e, rest4)
            | _ =>
              .error (.InvalidArgument (fname ++ str " requires exactly one argument"))
        else .error (.InvalidFunction fname)

/-- The argument loop of the `and` / `or` branches: stop consuming a token
when the input runs out, consume a `)` and stop, otherwise parse one
sub-expression and continue. -/
def parseArgsF : Nat → Int → List Token → Except ParseError (List SearchExpr × List Token)
  | 0, _, _ => .error .UnexpectedEnd
  | Nat.succ f, now, tokens =>
    match tokens with
    | [] => .ok ([], [])
    | Token.CloseParen :: rest => .ok ([], rest)
    | _ =>
      match parseExprF f now tokens with
      | .error e => .error e
      | .ok (e, rem) =>
        match parseArgsF f now rem with
        | .error e2 => .error e2
        | .ok (es, rem2) => .ok (e :: es, rem2)

end

/-- `search::parse_search_expr`: tokenize, parse one expression, require
every token consumed. -/
def parse_search_expr (now : Int) (input : RStr) : Except ParseError SearchExpr :=
  match tokenize input with
  | .error e => .error e
  | .ok tokens =>
    match parseExprF (tokens.length + 1) now tokens with
    | .error e => .error e
    | .ok (expr, remaining) =>
      if remaining ≠ [] then
        .error (.UnexpectedToken
          (str "Unexpected tokens after expression: " ++ debugTokens remaining))
      else .ok expr

end search

/-! ## `site.rs`: the content-item data model -/

/-- `serde_json::Value`; numbers are abstracted by their `to_string()`
rendering, which is all the search code observes of them. -/
inductive Json where
  | null
  | bool (b : Bool)
  | num (text : RStr)
  | str (s : RStr)
  | arr (xs : List Json)
  | obj (kvs : List (RStr × Json))
  deriving Repr

/-- `site::FileCrawlType`; `IndexMap` is embedded as an association list in
insertion order (key collisions, which `IndexMap` would merge, do not occur
in the items considered here). -/
inductive FileCrawlType where
  | Image (key filename : RStr) (downloaded : Bool) (url : RStr)
  | Video (key filename : RStr) (downloaded : Bool) (url : RStr)
  | Intermediate (key filename : RStr) (downloaded postprocessing_errors : Bool)
      (url : RStr) (nested : List (RStr × FileCrawlType))
  | Text (key content : RStr)
  deriving Repr

/-- `FileCrawlType::is_image` (from `bake.rs`). -/
def FileCrawlType.is_image : FileCrawlType → Bool
  | .Image _ _ _ _ => true
  | _ => false

/-- `FileCrawlType::is_video` (from `bake.rs`). -/
def FileCrawlType.is_video : FileCrawlType → Bool
  | .Video _ _ _ _ => true
  | _ => false

/-- Modelled from the spec: `FileCrawlType::is_text` is called by the
evaluator's `type` case but its definition is not among the provided
sources; per the spec a file's media kind `text` is the inline-text file
variant. -/
def FileCrawlType.is_text : FileCrawlType → Bool
  | .Text _ _ => true
  | _ => false

/-- `site::CrawlTag`. -/
inductive CrawlTag where
  | Detailed (group value : RStr)
  | Simple (value : RStr)
  deriving Repr

/-- `CrawlTag::to_string`. -/
def CrawlTag.to_string : CrawlTag → RStr
  | .Simple value => value
  | .Detailed _ value => value

/-- `site::SiteSettings` (runtime display settings; `work_dir_path` is an
opaque path string here). -/
structure SiteSettings where
  site_slug : RStr
  forced_author : Option RStr
  hide_titles : Bool
  work_dir_path : Option RStr
  deriving Repr

/-- `site::FormattedText`. -/
inductive FormattedText where
  | Markdown (value : RStr)
  | Plaintext (value : RStr)
  | Html (value : RStr)
  deriving Repr

/-- `site::CrawlItem` (timestamps in ms; `u64` fields as `Nat`). -/
structure CrawlItem where
  title : RStr
  key : RStr
  url : RStr
  description : FormattedText
  meta : Json
  source_published : Int
  first_seen : Nat
  last_seen : Nat
  seen_in_last_refresh : Bool
  tags : List CrawlTag
  files : List (RStr × FileCrawlType)
  previews : List (RStr × FileCrawlType)
  site_settings : SiteSettings
  deriving Repr

/-- `CrawlItem::flat_files`: replace each downloaded intermediate file by
its nested files. -/
def CrawlItem.flat_files (it : CrawlItem) : List (RStr × FileCrawlType) :=
  it.files.flatMap (fun kf =>
    match kf.2 with
    | .Intermediate _ _ downloaded _ _ nested =>
      if downloaded then nested else [kf]
    | _ => [kf])

/-! ## `reprocessors.rs`: text helpers used by the evaluator -/

/-- `reprocessors::extract_text_from_formatted_text`. -/
def extract_text_from_formatted_text : FormattedText → RStr
  | .Markdown value => value
  | .Plaintext value => value
  | .Html value => value

mutual

/-- `reprocessors::search_json_value_recursive`: case-insensitive substring
search through strings, object keys and number renderings. -/
def search_json_value_recursive (value : Json) (search_text : RStr) : Bool :=
  match value with
  | .str s => rstrContains (toLowerR s) (toLowerR search_text)
  | .obj kvs => searchJsonObj kvs search_text
  | .arr xs => searchJsonArr xs search_text
  | .num n => rstrContains (toLowerR n) (toLowerR search_text)
  | .bool _ => false
  | .null => false

def searchJsonObj (kvs : List (RStr × Json)) (search_text : RStr) : Bool :=
  match kvs with
  | [] => false
  | (k, v) :: rest =>
    rstrContains (toLowerR k) (toLowerR search_text) ||
    search_json_value_recursive v search_text ||
    searchJsonObj rest search_text

def searchJsonArr (xs : List Json) (search_text : RStr) : Bool :=
  match xs with
  | [] => false
  | v :: rest =>
    search_json_value_recursive v search_text || searchJsonArr rest search_text

end

/-! ## `search.rs`: the evaluator -/

namespace search

/-- The inline-text-file content search of the `fulltext` case. -/
def textFileMatch (files : List (RStr × FileCrawlType)) (searchLower : RStr) : Bool :=
  files.any (fun kf =>
    match kf.2 with
    | .Text _ content => rstrContains (toLowerR content) searchLower
    | _ => false)

mutual

/-- `search::evaluate_search_expr`.  The Rust function returns `bool` but
can panic through `expect` when an `After`/`Before`/`During` time string
fails to re-resolve against the evaluation-time `now`; the panic is
modelled as `none`. -/
def evaluate_search_expr (now : Int) (expr : SearchExpr) (item : CrawlItem) :
    Option Bool :=
  match expr with
  | .And exprs => evalAll now exprs item
  | .Or exprs => evalAny now exprs item
  | .Not e =>
    match evaluate_search_expr now e item with
    | none => none
    | some b => some (!b)
  | .Tag tag =>
    let tagLower := toLowerR tag
    some (item.tags.any (fun t => toLowerR t.to_string = tagLower))
  | .Typ fileType =>
    let flatFiles := item.flat_files
    some (if fileType = str "image" then flatFiles.any (fun kf => kf.2.is_image)
      else if fileType = str "video" then flatFiles.any (fun kf => kf.2.is_video)
      else if fileType = str "text" then flatFiles.any (fun kf => kf.2.is_text)
      else false)
  | .Site siteSlug => some (item.site_settings.site_slug = siteSlug)
  | .Fulltext searchText =>
    let searchLower := toLowerR searchText
    some (rstrContains (toLowerR item.title) searchLower ||
      rstrContains (toLowerR item.url) searchLower ||
      rstrContains (toLowerR (extract_text_from_formatted_text item.description))
        searchLower ||
      search_json_value_recursive item.meta searchText ||
      textFileMatch item.flat_files searchLower)
  | .Title searchText =>
    some (rstrContains (toLowerR item.title) (toLowerR searchText))
  | .Meta searchText => some (search_json_value_recursive item.meta searchText)
  | .Desc searchText =>
    some (rstrContains
      (toLowerR (extract_text_from_formatted_text item.description))
      (toLowerR searchText))
  | .Url searchText =>
    some (rstrContains (toLowerR item.url) (toLowerR searchText))
  | .After timeStr =>
    match timestring.parse timeStr now with
    | .error _ => none
    | .ok spec => some (item.source_published ≥ spec.for_after)
  | .Before timeStr =>
    match timestring.parse timeStr now with
    | .error _ => none
    | .ok spec => some (item.source_published ≤ spec.for_before)
  | .During timeStr =>
    match timestring.parse timeStr now with
    | .error _ => none
    | .ok spec => some (spec.contains item.source_published)

/-- `exprs.iter().all(..)` with the short-circuiting panic behavior: a child
that returns `false` stops evaluation before later children can panic. -/
def evalAll (now : Int) (exprs : List SearchExpr) (item : CrawlItem) : Option Bool :=
  match exprs with
  | [] => some true
  | e :: rest =>
    match evaluate_search_expr now e item with
    | none => none
    | some false => some false
    | some true => evalAll now rest item

/-- `exprs.iter().any(..)` with the short-circuiting panic behavior. -/
def evalAny (now : Int) (exprs : List SearchExpr) (item : CrawlItem) : Option Bool :=
  match exprs with
  | [] => some false
  | e :: rest =>
    match evaluate_search_expr now e item with
    | none => none
    | some true => some true
    | some false => evalAny now rest item

end

end search

/-! ## Shared concrete instants and a sample item -/

/-- The deterministic instant used by the repository's own tests:
Wednesday, January 15, 2025, 12:00:00 EST. -/
def testNow : Int := 1736960400000

/-- `testNow` really is 2025-01-15 12:00:00 in America/New_York. -/
theorem testNow_spec : nyWithYmdHms 2025 1 15 12 0 0 = some testNow := rfl

/-- March 31, 2025, 12:00:00 EDT: an instant whose local date has
day-of-month 31. -/
def nowMar31 : Int := 1743436800000

/-- `nowMar31` really is 2025-03-31 12:00:00 in America/New_York. -/
theorem nowMar31_spec : nyWithYmdHms 2025 3 31 12 0 0 = some nowMar31 := rfl

/-- A concrete content item for evaluating search expressions. -/
def sampleItem : CrawlItem :=
  { title := str "Hello World"
    key := str "k1"
    url := str "http://example.com/a"
    description := .Plaintext (str "a description")
    meta := .null
    source_published := 1735707600000
    first_seen := 0
    last_seen := 0
    seen_in_last_refresh := true
    tags := [.Simple (str "Cute")]
    files := []
    previews := []
    site_settings :=
      { site_slug := str "r-aww", forced_author := none,
        hide_titles := false, work_dir_path := none } }

/-- `sampleItem` with the given publish instant. -/
def itemAt (t : Int) : CrawlItem := { sampleItem with source_published := t }

/-! ## Claim C4: named periods, month names and year at the test instant -/

/-- C4: with `now` = Wednesday Jan 15 2025 12:00:00 in America/New_York,
`timestring::parse` maps `"2025"` to the range Jan 1 2025 00:00:00.000
through Dec 31 2025 23:59:59.999, `"yesterday"` to all of Jan 14 2025,
`"last week"` to Sunday Jan 5 through Saturday Jan 11 2025, `"december"` to
all of December 2024 and `"march"` to all of March 2024; each range ends one
millisecond before the start of the next period (the grounding equations
give the relevant local midnights). -/
theorem c4_named_periods :
    timestring.parse (str "2025") testNow =
      .ok (.Range 1735707600000 1767243599999) ∧
    nyWithYmdHms 2025 1 1 0 0 0 = some 1735707600000 ∧
    nyWithYmdHms 2026 1 1 0 0 0 = some 1767243600000 ∧
    timestring.parse (str "yesterday") testNow =
      .ok (.Range 1736830800000 1736917199999) ∧
    nyWithYmdHms 2025 1 14 0 0 0 = some 1736830800000 ∧
    nyWithYmdHms 2025 1 15 0 0 0 = some 1736917200000 ∧
    timestring.parse (str "last week") testNow =
      .ok (.Range 1736053200000 1736657999999) ∧
    nyWithYmdHms 2025 1 5 0 0 0 = some 1736053200000 ∧
    nyWithYmdHms 2025 1 12 0 0 0 = some 1736658000000 ∧
    weekdayFromSunday (daysFromCivil 2025 1 15) = 3 ∧
    timestring.parse (str "december") testNow =
      .ok (.Range 1733029200000 1735707599999) ∧
    nyWithYmdHms 2024 12 1 0 0 0 = some 1733029200000 ∧
    timestring.parse (str "march") testNow =
      .ok (.Range 1709269200000 1711943999999) ∧
    nyWithYmdHms 2024 3 1 0 0 0 = some 1709269200000 ∧
    nyWithYmdHms 2024 4 1 0 0 0 = some 1711944000000 :=
  ⟨rfl, rfl, rfl, rfl, rfl, rfl, rfl, rfl, rfl, rfl, rfl, rfl, rfl, rfl, rfl⟩

/-! ## Claim C5: TimeSpec direction semantics and range boundaries -/

/-- C5: `for_after` returns a range's end and `for_before` its start (both
return the value of a moment); `contains` is equality for moments and
inclusive-bounds membership for ranges; consequently an item published
exactly at a range's end satisfies `After` evaluation against a string
resolving to that range, and one published exactly at the start satisfies
`Before`. -/
theorem c5_timespec_directions :
    (∀ S E : Int, (timestring.TimeSpec.Range S E).for_after = E ∧
      (timestring.TimeSpec.Range S E).for_before = S) ∧
    (∀ t : Int, (timestring.TimeSpec.Moment t).for_after = t ∧
      (timestring.TimeSpec.Moment t).for_before = t) ∧
    (∀ t x : Int, (timestring.TimeSpec.Moment t).contains x = true ↔ x = t) ∧
    (∀ S E x : Int,
      (timestring.TimeSpec.Range S E).contains x = true ↔ S ≤ x ∧ x ≤ E) ∧
    (∀ (s : RStr) (now : Int) (item : CrawlItem) (S E : Int),
      timestring.parse s now = .ok (.Range S E) → item.source_published = E →
      search.evaluate_search_expr now (.After s) item = some true) ∧
    (∀ (s : RStr) (now : Int) (item : CrawlItem) (S E : Int),
      timestring.parse s now = .ok (.Range S E) → item.source_published = S →
      search.evaluate_search_expr now (.Before s) item = some true) := by
  refine ⟨fun S E => ⟨rfl, rfl⟩, fun t => ⟨rfl, rfl⟩,
    fun t x => by simp [timestring.TimeSpec.contains],
    fun S E x => by simp [timestring.TimeSpec.contains],
    fun s now item S E hp he => ?_, fun s now item S E hp he => ?_⟩
  · simp only [search.evaluate_search_expr]
    rw [hp]
    simp [timestring.TimeSpec.for_after, he]
  · simp only [search.evaluate_search_expr]
    rw [hp]
    simp [timestring.TimeSpec.for_before, he]

/-- Witness for C5: against `"2024"` (which resolves to the range
Jan 1 2024 00:00:00.000 EST through Dec 31 2024 23:59:59.999 EST), an item
published exactly at the range end satisfies `after`, and one published
exactly at the range start satisfies `before`. -/
theorem c5_timespec_directions_witness :
    search.evaluate_search_expr testNow (.After (str "2024"))
      (itemAt 1735707599999) = some true ∧
    search.evaluate_search_expr testNow (.Before (str "2024"))
      (itemAt 1704085200000) = some true :=
  ⟨c5_timespec_directions.2.2.2.2.1 (str "2024") testNow (itemAt 1735707599999)
      1704085200000 1735707599999 rfl rfl,
    c5_timespec_directions.2.2.2.2.2 (str "2024") testNow (itemAt 1704085200000)
      1704085200000 1735707599999 rfl rfl⟩

/-! ## Claim C1: evaluation-time re-resolution can fail -/

/-- C1 (code bug): the query `(after "1 month ago")` is validated and parses
successfully when `now` is Jan 15 2025 (the string resolves to Dec 15 2024),
but re-resolving the stored raw string at an evaluation-time `now` of
Mar 31 2025 fails (`with_month(2)` on a day-31 date yields no valid date),
so `evaluate_search_expr` reaches the `expect` panic branch (modelled as
`none`): the panic branch guarded by parse-time validation is reachable, and
evaluation is not total. -/
theorem c1_evaluation_panic_reachable :
    search.parse_search_expr testNow (str "(after \"1 month ago\")") =
      .ok (.After (str "1 month ago")) ∧
    timestring.parse (str "1 month ago") testNow = .ok (.Moment 1734282000000) ∧
    timestring.parse (str "1 month ago") nowMar31 =
      .error (str "Could not parse time string: 1 month ago") ∧
    search.evaluate_search_expr nowMar31 (.After (str "1 month ago"))
      sampleItem = none :=
  ⟨rfl, rfl, rfl, rfl⟩

/-! ## Claim C2: top-level grammar and missing closing parens -/

/-- C2 counterexample: an `and` form whose closing `)` is missing at end of
input parses *successfully* (the argument loop also terminates at end of
input), contradicting the claim that any form with a missing `)` fails. -/
theorem c2_counterexample :
    search.parse_search_expr testNow (str "(and (tag \"a\")") =
      .ok (.And [.Tag (str "a")]) := rfl

/-- C2 (amended): a bare string atom at top level and an unmatched `)` are
`UnexpectedToken` errors, trailing tokens after the expression are an error,
and a *leaf* or *not* form with a missing `)` fails (`InvalidArgument`), as
does `(and` with no arguments — but an `and`/`or` form with at least one
parsed argument accepts end of input in place of its closing `)`. -/
theorem c2_grammar_amended :
    (∀ now, search.parse_search_expr now (str "foo") =
      .error (.UnexpectedToken (str "Unexpected string token at top level: foo"))) ∧
    (∀ now, search.parse_search_expr now (str ")") =
      .error (.UnexpectedToken (str "Unexpected ')'"))) ∧
    (∀ now, search.parse_search_expr now (str "(tag \"a\") x") =
      .error (.UnexpectedToken
        (str "Unexpected tokens after expression: [String(\"x\")]"))) ∧
    (∀ now, search.parse_search_expr now (str "(tag \"a\"") =
      .error (.InvalidArgument (str "tag requires exactly one argument"))) ∧
    (∀ now, search.parse_search_expr now (str "(not (tag \"a\")") =
      .error (.InvalidArgument (str "not requires exactly one argument"))) ∧
    (∀ now, search.parse_search_expr now (str "(and") =
      .error (.InvalidArgument (str "and requires at least one argument"))) ∧
    (∀ now, search.parse_search_expr now (str "(and (tag \"a\")") =
      .ok (.And [.Tag (str "a")])) :=
  ⟨fun _ => rfl, fun _ => rfl, fun _ => rfl, fun _ => rfl, fun _ => rfl,
    fun _ => rfl, fun _ => rfl⟩

/-! ## Claim C6: `during` requires a range -/

namespace search

/-- Parsing the token form `(during x)` reduces to `timestring::parse`
validation followed by the range requirement (definitional unfolding of
`parseExprF`/`buildLeaf`). -/
theorem parseExprF_during_nested (x : RStr) (now : Int) :
    parseExprF 5 now
      [.OpenParen, .String (str "during"), .String x, .CloseParen] =
      (match (match timestring.parse x now with
              | .ok spec =>
                if spec.is_range then Except.ok (SearchExpr.During x)
                else Except.error (ParseError.InvalidArgument
                  (str "during requires a time range, not a specific moment: " ++ x))
              | .error _ => Except.error (ParseError.InvalidTimestamp x)) with
       | .error e => .error e
       | .ok e => .ok (e, ([] : List Token))) := rfl

end search

/-- C6: parsing `(during x)` succeeds exactly when `timestring::parse`
succeeds on `x` and yields a range: a string resolving to a moment (such as
an RFC3339 instant) is rejected with `InvalidArgument`, an unparsable string
with `InvalidTimestamp`, and a string resolving to a range (such as
`"2024"`) is accepted as `During x` with the raw string stored
un-resolved. -/
theorem c6_during_requires_range :
    (∀ (x : RStr) (now : Int) (spec : timestring.TimeSpec),
      timestring.parse x now = .ok spec → spec.is_range = true →
      search.parseExprF 5 now
        [.OpenParen, .String (str "during"), .String x, .CloseParen] =
        .ok (.During x, [])) ∧
    (∀ (x : RStr) (now : Int) (spec : timestring.TimeSpec),
      timestring.parse x now = .ok spec → spec.is_range = false →
      search.parseExprF 5 now
        [.OpenParen, .String (str "during"), .String x, .CloseParen] =
        .error (.InvalidArgument
          (str "during requires a time range, not a specific moment: " ++ x))) ∧
    (∀ (x : RStr) (now : Int) (msg : RStr),
      timestring.parse x now = .error msg →
      search.parseExprF 5 now
        [.OpenParen, .String (str "during"), .String x, .CloseParen] =
        .error (.InvalidTimestamp x)) ∧
    (∀ now, search.parse_search_expr now
      (str "(during \"2024-01-01T00:00:00Z\")") =
      .error (.InvalidArgument
        (str "during requires a time range, not a specific moment: 2024-01-01T00:00:00Z"))) ∧
    (∀ now, search.parse_search_expr now (str "(during \"2024\")") =
      .ok (.During (str "2024"))) ∧
    (∀ now, search.parse_search_expr now (str "(during \"not a date\")") =
      .error (.InvalidTimestamp (str "not a date"))) := by
  refine ⟨fun x now spec hp hr => ?_, fun x now spec hp hr => ?_,
    fun x now msg hp => ?_, fun _ => rfl, fun _ => rfl, fun _ => rfl⟩
  · rw [search.parseExprF_during_nested, hp]
    simp [hr]
  · rw [search.parseExprF_during_nested, hp]
    simp [hr]
  · rw [search.parseExprF_during_nested, hp]

/-- Witness for C6: the three general directions applied at `"2024"`
(a range), the RFC3339 instant (a moment), and an unparsable string. -/
theorem c6_during_requires_range_witness :
    search.parseExprF 5 testNow
      [.OpenParen, .String (str "during"), .String (str "2024"), .CloseParen] =
      .ok (.During (str "2024"), []) ∧
    search.parseExprF 5 testNow
      [.OpenParen, .String (str "during"),
       .String (str "2024-01-01T00:00:00Z"), .CloseParen] =
      .error (.InvalidArgument
        (str "during requires a time range, not a specific moment: 2024-01-01T00:00:00Z")) ∧
    search.parseExprF 5 testNow
      [.OpenParen, .String (str "during"), .String (str "nope"), .CloseParen] =
      .error (.InvalidTimestamp (str "nope")) :=
  ⟨c6_during_requires_range.1 (str "2024") testNow
      (.Range 1704085200000 1735707599999) rfl rfl,
    c6_during_requires_range.2.1 (str "2024-01-01T00:00:00Z") testNow
      (.Moment 1704067200000) rfl rfl,
    c6_during_requires_range.2.2.1 (str "nope") testNow
      (str "Could not parse time string: nope") rfl⟩

/-! ## Claim C9: quoting, escaping, unclosed quotes -/

namespace search

/-- The quote/escape state machine of the tokenizer character loop
(the projection of `tokenizeGo`'s state that decides `UnexpectedEnd`). -/
def quoteState : List Char → Bool × Bool → Bool × Bool
  | [], st => st
  | c :: rest, st =>
    quoteState rest
      (if st.2 then (st.1, false)
       else if c = '\\' ∧ st.1 then (st.1, true)
       else if c = '"' then (!st.1, false)
       else (st.1, false))

/-- Whether the input ends while a quote opened by `"` is still unclosed. -/
def unclosedQuote (input : RStr) : Bool := (quoteState input (false, false)).1

/-- The tokenizer errors exactly when the loop ends inside an open quote,
and the only error it produces is `UnexpectedEnd`. -/
theorem tokenizeGo_error_iff :
    ∀ (cs : List Char) (toks : List Token) (cur : RStr) (inS esc : Bool)
      (e : ParseError),
      tokenizeGo cs toks cur inS esc = .error e ↔
        ((quoteState cs (inS, esc)).1 = true ∧ e = .UnexpectedEnd) := by
  intro cs
  induction cs with
  | nil =>
    intro toks cur inS esc e
    by_cases h : inS <;> simp [tokenizeGo, quoteState, h, eq_comm]
  | cons c rest ih =>
    intro toks cur inS esc e
    simp only [tokenizeGo, quoteState]
    by_cases h1 : esc
    · simp only [h1, if_true, if_pos]
      exact ih ..
    · simp only [h1, if_false, Bool.false_eq_true, if_neg, not_false_iff]
      by_cases h2 : c = '\\' ∧ inS
      · simp only [if_pos h2]
        exact ih ..
      · simp only [if_neg h2]
        by_cases h3 : c = '"'
        · simp only [if_pos h3]
          by_cases h4 : inS <;> simp only [h4, if_true, if_false] <;>
            simpa using ih ..
        · simp only [if_neg h3]
          by_cases h5 : c = '(' ∧ ¬inS
          · simp only [if_pos h5]
            simpa [h5.2] using ih ..
          · simp only [if_neg h5]
            by_cases h6 : c = ')' ∧ ¬inS
            · simp only [if_pos h6]
              simpa [h6.2] using ih ..
            · simp only [if_neg h6]
              by_cases h7 : inS
              · simp only [h7, if_true]
                simpa using ih ..
              · simp only [h7, if_false, Bool.false_eq_true, not_false_iff]
                by_cases h8 : rustIsWs c <;> simp only [h8, if_true, if_false] <;>
                  simpa using ih ..

end search

/-- C9: a backslash inside a quoted string escapes the next character
literally, so the literal query `(tag "say \"hi\"")` tokenizes to open
paren, `tag`, a single string atom containing `say "hi"`, close paren; and
`tokenize` fails, with `UnexpectedEnd`, exactly on the inputs that end while
a quote is still open. -/
theorem c9_tokenizer_quoting :
    search.tokenize (str "(tag \"say \\\"hi\\\"\")") =
      .ok [.OpenParen, .String (str "tag"), .String (str "say \"hi\""),
        .CloseParen] ∧
    (∀ (input : RStr) (e : search.ParseError),
      search.tokenize input = .error e ↔
        (search.unclosedQuote input = true ∧ e = .UnexpectedEnd)) :=
  ⟨rfl, fun input e => search.tokenizeGo_error_iff input [] [] false false e⟩

/-- Witness for C9: an input cut off inside an open quote fails with
`UnexpectedEnd`. -/
theorem c9_tokenizer_quoting_witness :
    search.tokenize (str "(tag \"x") = .error .UnexpectedEnd :=
  (c9_tokenizer_quoting.2 (str "(tag \"x") .UnexpectedEnd).mpr ⟨rfl, rfl⟩

/-! ## Claim C10: empty quoted atoms are valid, empty bare words are not -/

/-- A non-whitespace-headed list survives `dropEndWs` with its head. -/
theorem dropEndWs_cons_of_not_ws {c : Char} (hc : rustIsWs c = false) (t : RStr) :
    ∃ t', dropEndWs (c :: t) = c :: t' := by
  unfold dropEndWs
  rw [show (c :: t).reverse = t.reverse ++ [c] from by simp]
  rw [List.dropWhile_append]
  by_cases h : (t.reverse.dropWhile rustIsWs).isEmpty
  · refine ⟨[], ?_⟩
    simp [h, List.dropWhile_cons, hc]
  · refine ⟨(t.reverse.dropWhile rustIsWs).reverse, ?_⟩
    simp [h]

/-- A non-empty trimmed string contains a non-whitespace character. -/
theorem rustTrim_good {l : RStr} (h : rustTrim l ≠ []) :
    ∃ c ∈ rustTrim l, rustIsWs c = false := by
  induction l with
  | nil => simp [rustTrim, dropEndWs] at h
  | cons c t ih =>
    by_cases hc : rustIsWs c
    · have he : rustTrim (c :: t) = rustTrim t := by
        simp [rustTrim, List.dropWhile_cons, hc]
      rw [he] at h ⊢
      exact ih h
    · have hc' : rustIsWs c = false := by simpa using hc
      have h2 : rustTrim (c :: t) = dropEndWs (c :: t) := by
        simp [rustTrim, List.dropWhile_cons, hc']
      obtain ⟨t', ht'⟩ := dropEndWs_cons_of_not_ws hc' t
      rw [h2, ht']
      exact ⟨c, List.mem_cons_self .., hc'⟩

namespace search

/-- A well-formed bare token: non-empty and not all whitespace. -/
def GoodTok (tk : Token) : Prop :=
  ∀ s, tk = Token.String s → s ≠ [] ∧ ∃ c ∈ s, rustIsWs c = false

/-- `flushBare` only ever emits well-formed bare tokens. -/
theorem flushBare_good {toks : List Token} {cur : RStr}
    (h : ∀ tk ∈ toks, GoodTok tk) : ∀ tk ∈ flushBare toks cur, GoodTok tk := by
  unfold flushBare
  by_cases hc : rustTrim cur ≠ []
  · simp only [if_pos hc]
    intro tk htk
    rcases List.mem_append.1 htk with h1 | h1
    · exact h tk h1
    · simp only [List.mem_singleton] at h1
      subst h1
      intro s hs
      injection hs with hs'
      subst hs'
      exact ⟨hc, rustTrim_good hc⟩
  · simp only [if_neg hc]
    exact h

/-- On quote-free input the tokenizer emits only well-formed bare tokens. -/
theorem tokenizeGo_bare_good :
    ∀ (cs : List Char), (∀ c ∈ cs, c ≠ '"') →
    ∀ (toks : List Token) (cur : RStr),
      (∀ tk ∈ toks, GoodTok tk) →
      ∀ res, tokenizeGo cs toks cur false false = .ok res →
      ∀ tk ∈ res, GoodTok tk := by
  intro cs
  induction cs with
  | nil =>
    intro _ toks cur hg res hres
    simp only [tokenizeGo, Bool.false_eq_true, if_false, if_neg,
      not_false_iff] at hres
    injection hres with h'
    subst h'
    exact flushBare_good hg
  | cons c rest ih =>
    intro hq toks cur hg res hres
    have hcq : c ≠ '"' := hq c (by simp)
    have hrest : ∀ x ∈ rest, x ≠ '"' := fun x hx => hq x (by simp [hx])
    simp only [tokenizeGo, Bool.false_eq_true, if_false, and_false,
      not_false_iff, and_true, if_neg hcq] at hres
    by_cases h5 : c = '('
    · rw [if_pos h5] at hres
      exact ih hrest _ _ (by
        intro tk htk
        rcases List.mem_append.1 htk with h1 | h1
        · exact flushBare_good hg tk h1
        · simp only [List.mem_singleton] at h1
          subst h1
          intro s hs
          cases hs) res hres
    · rw [if_neg h5] at hres
      by_cases h6 : c = ')'
      · rw [if_pos h6] at hres
        exact ih hrest _ _ (by
          intro tk htk
          rcases List.mem_append.1 htk with h1 | h1
          · exact flushBare_good hg tk h1
          · simp only [List.mem_singleton] at h1
            subst h1
            intro s hs
            cases hs) res hres
      · rw [if_neg h6] at hres
        by_cases h8 : rustIsWs c
        · rw [if_pos h8] at hres
          exact ih hrest _ _ (flushBare_good hg) res hres
        · rw [if_neg h8] at hres
          exact ih hrest _ _ hg res hres

end search

/-- C10: a quoted empty string is a valid atom — the quoted-string flush does
not check emptiness, so `(tag "")` tokenizes with an empty string atom and
parses to `Tag("")` — whereas on quote-free input an empty or all-whitespace
bare-word buffer is never emitted as a token. -/
theorem c10_empty_atoms :
    (∀ now, search.parse_search_expr now (str "(tag \"\")") = .ok (.Tag [])) ∧
    search.tokenize (str "(tag \"\")") =
      .ok [.OpenParen, .String (str "tag"), .String [], .CloseParen] ∧
    (∀ (input : RStr), (∀ c ∈ input, c ≠ '"') →
      ∀ toks, search.tokenize input = .ok toks →
      ∀ s, search.Token.String s ∈ toks →
        s ≠ [] ∧ ∃ c ∈ s, rustIsWs c = false) :=
  ⟨fun _ => rfl, rfl,
    fun input hq toks htoks s hs =>
      search.tokenizeGo_bare_good input hq [] [] (by simp) toks htoks
        (search.Token.String s) hs s rfl⟩

/-- Witness for C10: on the quote-free input `" ab "`, the only emitted
token is the non-empty, non-whitespace word `ab`. -/
theorem c10_empty_atoms_witness :
    str "ab" ≠ [] ∧ ∃ c ∈ str "ab", rustIsWs c = false :=
  c10_empty_atoms.2.2 (str " ab ") (by decide)
    [.String (str "ab")] rfl (str "ab") (by simp)

/-! ## Claim C7: and/or arity, composition and evaluation -/

namespace search

theorem parseF_mono :
    ∀ (f : Nat),
      (∀ g, f ≤ g → ∀ (now : Int) (ts : List Token) r,
        parseExprF f now ts = .ok r → parseExprF g now ts = .ok r) ∧
      (∀ g, f ≤ g → ∀ (now : Int) (ts : List Token) r,
        parseArgsF f now ts = .ok r → parseArgsF g now ts = .ok r) := by
  intro f
  induction f with
  | zero =>
    constructor <;> intro g hg now ts r h <;> simp [parseExprF, parseArgsF] at h
  | succ f ih =>
    constructor
    · intro g hg now ts r h
      obtain ⟨g', rfl⟩ : ∃ g', g = g' + 1 := ⟨g - 1, by omega⟩
      have hfg : f ≤ g' := by omega
      rcases ts with _ | ⟨t1, rest⟩
      · simp [parseExprF] at h
      rcases t1 with _ | _ | s
      case CloseParen => simp [parseExprF] at h
      case String => simp [parseExprF] at h
      case OpenParen =>
      rcases rest with _ | ⟨t2, rest2⟩
      · simp [parseExprF] at h
      rcases t2 with _ | _ | fname
      case OpenParen => simp [parseExprF] at h
      case CloseParen => simp [parseExprF] at h
      case String =>
      simp only [parseExprF] at h ⊢
      by_cases ha : toLowerR fname = str "and"
      · rw [if_pos ha] at h ⊢
        cases hargs : parseArgsF f now rest2 with
        | error e => rw [hargs] at h; cases h
        | ok ar =>
          obtain ⟨args, rem⟩ := ar
          rw [hargs] at h
          rw [ih.2 g' hfg now rest2 (args, rem) hargs]
          exact h
      · rw [if_neg ha] at h ⊢
        by_cases ho : toLowerR fname = str "or"
        · rw [if_pos ho] at h ⊢
          cases hargs : parseArgsF f now rest2 with
          | error e => rw [hargs] at h; cases h
          | ok ar =>
            obtain ⟨args, rem⟩ := ar
            rw [hargs] at h
            rw [ih.2 g' hfg now rest2 (args, rem) hargs]
            exact h
        · rw [if_neg ho] at h ⊢
          by_cases hn : toLowerR fname = str "not"
          · rw [if_pos hn] at h ⊢
            cases hsub : parseExprF f now rest2 with
            | error e => rw [hsub] at h; cases h
            | ok er =>
              obtain ⟨e1, rem1⟩ := er
              rw [hsub] at h
              rw [ih.1 g' hfg now rest2 (e1, rem1) hsub]
              exact h
          · rw [if_neg hn] at h ⊢
            exact h
    · intro g hg now ts r h
      obtain ⟨g', rfl⟩ : ∃ g', g = g' + 1 := ⟨g - 1, by omega⟩
      have hfg : f ≤ g' := by omega
      rcases ts with _ | ⟨t1, rest⟩
      · simpa [parseArgsF] using h
      rcases t1 with _ | _ | s
      case CloseParen => simpa [parseArgsF] using h
      case String =>
        simp only [parseArgsF] at h ⊢
        cases hsub : parseExprF f now (Token.String s :: rest) with
        | error e => rw [hsub] at h; cases h
        | ok er =>
          obtain ⟨e1, rem1⟩ := er
          rw [hsub] at h
          rw [ih.1 g' hfg now _ (e1, rem1) hsub]
          dsimp only at h ⊢
          cases hargs : parseArgsF f now rem1 with
          | error e2 => rw [hargs] at h; cases h
          | ok ar =>
            obtain ⟨es, rem2⟩ := ar
            rw [hargs] at h
            rw [ih.2 g' hfg now rem1 (es, rem2) hargs]
            exact h
      case OpenParen =>
        simp only [parseArgsF] at h ⊢
        cases hsub : parseExprF f now (Token.OpenParen :: rest) with
        | error e => rw [hsub] at h; cases h
        | ok er =>
          obtain ⟨e1, rem1⟩ := er
          rw [hsub] at h
          rw [ih.1 g' hfg now _ (e1, rem1) hsub]
          dsimp only at h ⊢
          cases hargs : parseArgsF f now rem1 with
          | error e2 => rw [hargs] at h; cases h
          | ok ar =>
            obtain ⟨es, rem2⟩ := ar
            rw [hargs] at h
            rw [ih.2 g' hfg now rem1 (es, rem2) hargs]
            exact h

end search

namespace search

theorem parseArgsF_nil_rem (f : Nat) (now : Int) (es : List SearchExpr)
    (rem : List Token) (h : parseArgsF f now [] = .ok (es, rem)) :
    es = [] ∧ rem = [] := by
  cases f with
  | zero => simp [parseArgsF] at h
  | succ f =>
    simp only [parseArgsF] at h
    injection h with h'
    injection h' with h1 h2
    exact ⟨h1.symm, h2.symm⟩

theorem parseF_frame :
    ∀ (f : Nat),
      (∀ (now : Int) (ts : List Token) (e : SearchExpr) (rem post : List Token),
        parseExprF f now ts = .ok (e, rem) → rem ≠ [] →
        parseExprF f now (ts ++ post) = .ok (e, rem ++ post)) ∧
      (∀ (now : Int) (ts : List Token) (es : List SearchExpr)
        (rem post : List Token),
        parseArgsF f now ts = .ok (es, rem) → rem ≠ [] →
        parseArgsF f now (ts ++ post) = .ok (es, rem ++ post)) := by
  intro f
  induction f with
  | zero =>
    constructor <;> intro now ts a rem post h hrem <;>
      simp [parseExprF, parseArgsF] at h
  | succ f ih =>
    constructor
    · intro now ts e rem post h hrem
      rcases ts with _ | ⟨t1, rest⟩
      · simp [parseExprF] at h
      rcases t1 with _ | _ | s
      case CloseParen => simp [parseExprF] at h
      case String => simp [parseExprF] at h
      case OpenParen =>
      rcases rest with _ | ⟨t2, rest2⟩
      · simp [parseExprF] at h
      rcases t2 with _ | _ | fname
      case OpenParen => simp [parseExprF] at h
      case CloseParen => simp [parseExprF] at h
      case String =>
      simp only [List.cons_append]
      simp only [parseExprF] at h ⊢
      by_cases ha : toLowerR fname = str "and"
      · rw [if_pos ha] at h ⊢
        cases hargs : parseArgsF f now rest2 with
        | error er => rw [hargs] at h; cases h
        | ok ar =>
          obtain ⟨args, rem'⟩ := ar
          rw [hargs] at h
          dsimp only at h
          by_cases hemp : args.isEmpty
          · rw [if_pos hemp] at h; cases h
          · rw [if_neg hemp] at h
            injection h with h'
            injection h' with h1 h2
            subst h1; subst h2
            rw [ih.2 now rest2 args rem' post hargs hrem]
            dsimp only
            rw [if_neg hemp]
      · rw [if_neg ha] at h ⊢
        by_cases ho : toLowerR fname = str "or"
        · rw [if_pos ho] at h ⊢
          cases hargs : parseArgsF f now rest2 with
          | error er => rw [hargs] at h; cases h
          | ok ar =>
            obtain ⟨args, rem'⟩ := ar
            rw [hargs] at h
            dsimp only at h
            by_cases hemp : args.isEmpty
            · rw [if_pos hemp] at h; cases h
            · rw [if_neg hemp] at h
              injection h with h'
              injection h' with h1 h2
              subst h1; subst h2
              rw [ih.2 now rest2 args rem' post hargs hrem]
              dsimp only
              rw [if_neg hemp]
        · rw [if_neg ho] at h ⊢
          by_cases hn : toLowerR fname = str "not"
          · rw [if_pos hn] at h ⊢
            cases hsub : parseExprF f now rest2 with
            | error er => rw [hsub] at h; cases h
            | ok er =>
              obtain ⟨e1, rem1⟩ := er
              rw [hsub] at h
              dsimp only at h
              rcases rem1 with _ | ⟨rt, rem2⟩
              · cases h
              rcases rt with _ | _ | rs
              · cases h
              · injection h with h'
                injection h' with h1 h2
                subst h1; subst h2
                rw [ih.1 now rest2 e1 (Token.CloseParen :: rem2) post hsub
                  (by simp)]
                rfl
              · cases h
          · rw [if_neg hn] at h ⊢
            by_cases hleaf : leafNames.contains (toLowerR fname)
            · rw [if_pos hleaf] at h ⊢
              rcases rest2 with _ | ⟨t3, rest3⟩
              · cases h
              rcases t3 with _ | _ | arg
              · cases h
              · cases h
              simp only [List.cons_append]
              rcases rest3 with _ | ⟨t4, rest4⟩
              · cases h
              rcases t4 with _ | _ | s4
              · cases h
              · simp only [List.cons_append]
                dsimp only at h ⊢
                cases hb : buildLeaf now (toLowerR fname) fname arg with
                | error er => rw [hb] at h; cases h
                | ok eb =>
                  rw [hb] at h
                  dsimp only at h
                  injection h with h'
                  injection h' with h1 h2
                  subst h1; subst h2
                  rfl
              · cases h
            · rw [if_neg hleaf] at h
              cases h
    · intro now ts es rem post h hrem
      rcases ts with _ | ⟨t1, rest⟩
      · obtain ⟨h1, h2⟩ := parseArgsF_nil_rem (f + 1) now es rem h
        exact absurd h2 hrem
      rcases t1 with _ | _ | s
      case CloseParen =>
        simp only [parseArgsF] at h
        injection h with h'
        injection h' with h1 h2
        subst h1; subst h2
        simp only [List.cons_append, parseArgsF]
      case String =>
        simp only [List.cons_append, parseArgsF] at h ⊢
        cases hsub : parseExprF f now (Token.String s :: rest) with
        | error er => rw [hsub] at h; cases h
        | ok er =>
          obtain ⟨e1, rem1⟩ := er
          rw [hsub] at h
          dsimp only at h
          cases hargs : parseArgsF f now rem1 with
          | error e2 => rw [hargs] at h; cases h
          | ok ar =>
            obtain ⟨es', rem2⟩ := ar
            rw [hargs] at h
            injection h with h'
            injection h' with h1 h2
            subst h1; subst h2
            rcases rem1 with _ | ⟨rt, rem1'⟩
            · obtain ⟨h1, h2⟩ := parseArgsF_nil_rem f now es' rem2 hargs
              exact absurd h2 hrem
            · have hframe1 := ih.1 now (Token.String s :: rest) e1
                (rt :: rem1') post hsub (by simp)
              rw [List.cons_append] at hframe1
              rw [hframe1]
              dsimp only
              rw [ih.2 now (rt :: rem1') es' rem2 post hargs hrem]
      case OpenParen =>
        simp only [List.cons_append, parseArgsF] at h ⊢
        cases hsub : parseExprF f now (Token.OpenParen :: rest) with
        | error er => rw [hsub] at h; cases h
        | ok er =>
          obtain ⟨e1, rem1⟩ := er
          rw [hsub] at h
          dsimp only at h
          cases hargs : parseArgsF f now rem1 with
          | error e2 => rw [hargs] at h; cases h
          | ok ar =>
            obtain ⟨es', rem2⟩ := ar
            rw [hargs] at h
            injection h with h'
            injection h' with h1 h2
            subst h1; subst h2
            rcases rem1 with _ | ⟨rt, rem1'⟩
            · obtain ⟨h1, h2⟩ := parseArgsF_nil_rem f now es' rem2 hargs
              exact absurd h2 hrem
            · have hframe1 := ih.1 now (Token.OpenParen :: rest) e1
                (rt :: rem1') post hsub (by simp)
              rw [List.cons_append] at hframe1
              rw [hframe1]
              dsimp only
              rw [ih.2 now (rt :: rem1') es' rem2 post hargs hrem]

end search

namespace search

/-- A token list that parses completely as a single expression, stably under
any appended continuation: the token-level notion of a well-formed
(balanced) sub-expression. -/
def CompleteParse (now : Int) (ts : List Token) (e : SearchExpr) : Prop :=
  ∀ (post : List Token) (f : Nat), ts.length + 1 ≤ f →
    parseExprF f now (ts ++ post) = .ok (e, post)

/-- A well-formed sub-expression starts with an open paren. -/
theorem completeParse_head {now : Int} {ts : List Token} {e : SearchExpr}
    (h : CompleteParse now ts e) : ∃ rest, ts = Token.OpenParen :: rest := by
  have h0 := h [] (ts.length + 1) le_rfl
  rw [List.append_nil] at h0
  rcases ts with _ | ⟨t1, rest⟩
  · simp [parseExprF] at h0
  rcases t1 with _ | _ | s
  case OpenParen => exact ⟨rest, rfl⟩
  case CloseParen => simp [parseExprF, List.length_cons] at h0
  case String => simp [parseExprF, List.length_cons] at h0

/-- Concatenated token lists of a sequence of argument forms. -/
def joinArgs (ps : List (List Token × SearchExpr)) : List Token :=
  ps.flatMap Prod.fst

/-- Total token count of a sequence of argument forms. -/
def argsLen (ps : List (List Token × SearchExpr)) : Nat :=
  (ps.map (fun p => p.1.length)).sum

/-- The `and`/`or` argument loop consumes a sequence of well-formed forms
followed by the closing paren, producing the corresponding expressions. -/
theorem parseArgsF_compose (now : Int) :
    ∀ (ps : List (List Token × SearchExpr)) (post : List Token) (f : Nat),
      (∀ p ∈ ps, CompleteParse now p.1 p.2) →
      argsLen ps + 2 ≤ f →
      parseArgsF f now (joinArgs ps ++ (Token.CloseParen :: post)) =
        .ok (ps.map Prod.snd, post) := by
  intro ps
  induction ps with
  | nil =>
    intro post f _ hf
    obtain ⟨f', rfl⟩ : ∃ f', f = f' + 1 := ⟨f - 1, by omega⟩
    simp [parseArgsF, joinArgs]
  | cons p ps' ih =>
    intro post f hcp hf
    obtain ⟨ts1, e1⟩ := p
    obtain ⟨rest1, hts1⟩ := completeParse_head (hcp (ts1, e1) (List.mem_cons_self _ _))
    subst hts1
    obtain ⟨f', rfl⟩ : ∃ f', f = f' + 1 := ⟨f - 1, by omega⟩
    have hlen : argsLen ((Token.OpenParen :: rest1, e1) :: ps') =
        rest1.length + 1 + argsLen ps' := by
      simp [argsLen]
    simp only [joinArgs, List.flatMap_cons, List.append_assoc] at hf ⊢
    have hj : (Token.OpenParen :: rest1) ++ (ps'.flatMap Prod.fst ++
        (Token.CloseParen :: post)) = Token.OpenParen ::
        (rest1 ++ (ps'.flatMap Prod.fst ++ (Token.CloseParen :: post))) := rfl
    rw [hj]
    simp only [parseArgsF]
    have h1 := hcp (Token.OpenParen :: rest1, e1) (by simp)
      (ps'.flatMap Prod.fst ++ (Token.CloseParen :: post)) f'
      (by simp only [List.length_cons]; omega)
    rw [List.cons_append] at h1
    rw [h1]
    dsimp only
    have h2 := ih post f' (fun p hp => hcp p (by simp [hp])) (by omega)
    simp only [joinArgs] at h2
    rw [h2]
    simp

end search

namespace search

theorem parseExprF_and_compose (now : Int)
    (ps : List (List Token × SearchExpr)) (post : List Token) (f : Nat)
    (hne : ps ≠ []) (hcp : ∀ p ∈ ps, CompleteParse now p.1 p.2)
    (hf : argsLen ps + 3 ≤ f) :
    parseExprF f now (Token.OpenParen :: Token.String (str "and") ::
        (joinArgs ps ++ (Token.CloseParen :: post))) =
      .ok (.And (ps.map Prod.snd), post) := by
  obtain ⟨f', rfl⟩ : ∃ f', f = f' + 1 := ⟨f - 1, by omega⟩
  simp only [parseExprF]
  rw [if_pos (show toLowerR (str "and") = str "and" from rfl)]
  rw [parseArgsF_compose now ps post f' hcp (by omega)]
  dsimp only
  rw [if_neg (by simpa using hne)]

theorem parseExprF_or_compose (now : Int)
    (ps : List (List Token × SearchExpr)) (post : List Token) (f : Nat)
    (hne : ps ≠ []) (hcp : ∀ p ∈ ps, CompleteParse now p.1 p.2)
    (hf : argsLen ps + 3 ≤ f) :
    parseExprF f now (Token.OpenParen :: Token.String (str "or") ::
        (joinArgs ps ++ (Token.CloseParen :: post))) =
      .ok (.Or (ps.map Prod.snd), post) := by
  obtain ⟨f', rfl⟩ : ∃ f', f = f' + 1 := ⟨f - 1, by omega⟩
  simp only [parseExprF]
  rw [if_neg (show ¬(toLowerR (str "or") = str "and") from by decide)]
  rw [if_pos (show toLowerR (str "or") = str "or" from rfl)]
  rw [parseArgsF_compose now ps post f' hcp (by omega)]
  dsimp only
  rw [if_neg (by simpa using hne)]

theorem parseExprF_not_two_args (now : Int) (tsa : List Token)
    (ea : SearchExpr) (tsb : List Token) (f : Nat)
    (hcp : CompleteParse now tsa ea)
    (hb : ∀ t rest, tsb = t :: rest → t ≠ Token.CloseParen)
    (hf : tsa.length + 2 ≤ f) :
    parseExprF f now (Token.OpenParen :: Token.String (str "not") :: (tsa ++ tsb)) =
      .error (.InvalidArgument (str "not requires exactly one argument")) := by
  obtain ⟨f', rfl⟩ : ∃ f', f = f' + 1 := ⟨f - 1, by omega⟩
  simp only [parseExprF]
  rw [if_neg (show ¬(toLowerR (str "not") = str "and") from by decide)]
  rw [if_neg (show ¬(toLowerR (str "not") = str "or") from by decide)]
  rw [if_pos (show toLowerR (str "not") = str "not" from rfl)]
  rw [hcp tsb f' (by omega)]
  dsimp only
  rcases tsb with _ | ⟨t, rest⟩
  · rfl
  rcases t with _ | _ | s
  case OpenParen => rfl
  case CloseParen => exact absurd rfl (hb _ rest rfl)
  case String => rfl

/-- `iter().all` / `iter().any` semantics of the evaluator when every child
evaluates successfully. -/
theorem evalAll_evalAny_forall₂ (now : Int) (item : CrawlItem) :
    ∀ (es : List SearchExpr) (bs : List Bool),
      List.Forall₂ (fun e b => evaluate_search_expr now e item = some b) es bs →
      evaluate_search_expr now (.And es) item = some (bs.all id) ∧
      evaluate_search_expr now (.Or es) item = some (bs.any id) := by
  intro es bs hfa
  have hAll : ∀ (es : List SearchExpr) (bs : List Bool),
      List.Forall₂ (fun e b => evaluate_search_expr now e item = some b) es bs →
      evalAll now es item = some (bs.all id) := by
    intro es bs hfa
    induction hfa with
    | nil => simp [evalAll]
    | cons h hs ih =>
      rename_i e b es' bs'
      simp only [evalAll, h]
      cases b with
      | false => simp
      | true => simpa using ih
  have hAny : ∀ (es : List SearchExpr) (bs : List Bool),
      List.Forall₂ (fun e b => evaluate_search_expr now e item = some b) es bs →
      evalAny now es item = some (bs.any id) := by
    intro es bs hfa
    induction hfa with
    | nil => simp [evalAny]
    | cons h hs ih =>
      rename_i e b es' bs'
      simp only [evalAny, h]
      cases b with
      | true => simp
      | false => simpa using ih
  constructor
  · simp only [evaluate_search_expr]
    exact hAll es bs hfa
  · simp only [evaluate_search_expr]
    exact hAny es bs hfa

end search

/-- C7: for every non-empty sequence of well-formed sub-expressions, the
form `(and e1 ... eN)` parses to `And` of the sub-expressions — and `or`
likewise — and when every child evaluates successfully, `And` evaluates to
the boolean AND of the children's values and `Or` to the boolean OR;
`(and)` and `(or)` with zero arguments fail with `InvalidArgument`; and a
`not` form with a second argument before its `)` fails with
`InvalidArgument`. -/
theorem c7_and_or_not_arity :
    (∀ (now : Int) (ps : List (List search.Token × search.SearchExpr))
      (post : List search.Token) (f : Nat), ps ≠ [] →
      (∀ p ∈ ps, search.CompleteParse now p.1 p.2) →
      search.argsLen ps + 3 ≤ f →
      search.parseExprF f now (.OpenParen :: .String (str "and") ::
        (search.joinArgs ps ++ (.CloseParen :: post))) =
        .ok (.And (ps.map Prod.snd), post)) ∧
    (∀ (now : Int) (ps : List (List search.Token × search.SearchExpr))
      (post : List search.Token) (f : Nat), ps ≠ [] →
      (∀ p ∈ ps, search.CompleteParse now p.1 p.2) →
      search.argsLen ps + 3 ≤ f →
      search.parseExprF f now (.OpenParen :: .String (str "or") ::
        (search.joinArgs ps ++ (.CloseParen :: post))) =
        .ok (.Or (ps.map Prod.snd), post)) ∧
    (∀ (now : Int) (item : CrawlItem) (es : List search.SearchExpr)
      (bs : List Bool),
      List.Forall₂
        (fun e b => search.evaluate_search_expr now e item = some b) es bs →
      search.evaluate_search_expr now (.And es) item = some (bs.all id) ∧
      search.evaluate_search_expr now (.Or es) item = some (bs.any id)) ∧
    (∀ now, search.parse_search_expr now (str "(and)") =
      .error (.InvalidArgument (str "and requires at least one argument"))) ∧
    (∀ now, search.parse_search_expr now (str "(or)") =
      .error (.InvalidArgument (str "or requires at least one argument"))) ∧
    (∀ (now : Int) (tsa : List search.Token) (ea : search.SearchExpr)
      (tsb : List search.Token) (f : Nat),
      search.CompleteParse now tsa ea →
      (∀ t rest, tsb = t :: rest → t ≠ search.Token.CloseParen) →
      tsa.length + 2 ≤ f →
      search.parseExprF f now
        (.OpenParen :: .String (str "not") :: (tsa ++ tsb)) =
        .error (.InvalidArgument (str "not requires exactly one argument"))) ∧
    (∀ now, search.parse_search_expr now (str "(not (tag \"a\") (tag \"b\"))") =
      .error (.InvalidArgument (str "not requires exactly one argument"))) :=
  ⟨search.parseExprF_and_compose, search.parseExprF_or_compose,
    fun now item es bs h => search.evalAll_evalAny_forall₂ now item es bs h,
    fun _ => rfl, fun _ => rfl, search.parseExprF_not_two_args, fun _ => rfl⟩

/-- Witness for C7: `(and (tag "a"))` and `(or (tag "a"))` at the token
level with one well-formed argument; `And` evaluating two tag tests on the
sample item; and `(not (tag "a") (tag "b"))` rejected at the token level. -/
theorem c7_and_or_not_arity_witness :
    search.parseExprF 8 testNow
      [.OpenParen, .String (str "and"), .OpenParen, .String (str "tag"),
       .String (str "a"), .CloseParen, .CloseParen] =
      .ok (.And [.Tag (str "a")], []) ∧
    search.parseExprF 8 testNow
      [.OpenParen, .String (str "or"), .OpenParen, .String (str "tag"),
       .String (str "a"), .CloseParen, .CloseParen] =
      .ok (.Or [.Tag (str "a")], []) ∧
    search.evaluate_search_expr testNow
      (.And [.Tag (str "cute"), .Tag (str "nope")]) sampleItem =
      some ([true, false].all id) ∧
    search.parseExprF 10 testNow
      [.OpenParen, .String (str "not"), .OpenParen, .String (str "tag"),
       .String (str "a"), .CloseParen, .OpenParen, .String (str "tag"),
       .String (str "b"), .CloseParen] =
      .error (.InvalidArgument (str "not requires exactly one argument")) := by
  have hcpa : search.CompleteParse testNow
      [.OpenParen, .String (str "tag"), .String (str "a"), .CloseParen]
      (.Tag (str "a")) := by
    intro post f hf
    obtain ⟨f', rfl⟩ : ∃ f', f = f' + 1 := ⟨f - 1, by omega⟩
    rfl
  have hone : ∀ p ∈ [([search.Token.OpenParen, .String (str "tag"),
      .String (str "a"), .CloseParen], search.SearchExpr.Tag (str "a"))],
      search.CompleteParse testNow p.1 p.2 := by
    intro p hp
    simp only [List.mem_singleton] at hp
    subst hp
    exact hcpa
  refine ⟨?_, ?_, ?_, ?_⟩
  · simpa [search.joinArgs] using
      c7_and_or_not_arity.1 testNow
        [([.OpenParen, .String (str "tag"), .String (str "a"), .CloseParen],
          .Tag (str "a"))] [] 8 (by simp) hone (by simp [search.argsLen])
  · simpa [search.joinArgs] using
      c7_and_or_not_arity.2.1 testNow
        [([.OpenParen, .String (str "tag"), .String (str "a"), .CloseParen],
          .Tag (str "a"))] [] 8 (by simp) hone (by simp [search.argsLen])
  · exact (c7_and_or_not_arity.2.2.1 testNow sampleItem
      [.Tag (str "cute"), .Tag (str "nope")] [true, false]
      (.cons rfl (.cons rfl .nil))).1
  · simpa using
      c7_and_or_not_arity.2.2.2.2.2.1 testNow
        [.OpenParen, .String (str "tag"), .String (str "a"), .CloseParen]
        (.Tag (str "a"))
        [.OpenParen, .String (str "tag"), .String (str "b"), .CloseParen] 10
        hcpa (by intro t rest h; cases h; simp) (by simp)

/-! kit -/

theorem isAsciiDigit_bounds {c : Char} (h : isAsciiDigit c = true) :
    48 ≤ c.toNat ∧ c.toNat ≤ 57 := by
  simpa [isAsciiDigit, Bool.and_eq_true, decide_eq_true_iff] using h

theorem digit_not_ws {c : Char} (h : isAsciiDigit c = true) :
    rustIsWs c = false := by
  obtain ⟨h1, h2⟩ := isAsciiDigit_bounds h
  simp only [rustIsWs, Bool.or_eq_false_iff, Bool.and_eq_false_iff,
    decide_eq_false_iff_not]
  omega

theorem digit_lower {c : Char} (h : isAsciiDigit c = true) :
    asciiLowerChar c = c := by
  obtain ⟨h1, h2⟩ := isAsciiDigit_bounds h
  unfold asciiLowerChar
  rw [if_neg]
  omega

theorem digit_ne {c : Char} (h : isAsciiDigit c = true) (d : Char)
    (hd : 57 < d.toNat) : c ≠ d := by
  obtain ⟨h1, h2⟩ := isAsciiDigit_bounds h
  intro he
  subst he
  omega

theorem digit_ne_low {c : Char} (h : isAsciiDigit c = true) (d : Char)
    (hd : d.toNat < 48) : c ≠ d := by
  obtain ⟨h1, h2⟩ := isAsciiDigit_bounds h
  intro he
  subst he
  omega

theorem takeWhile_append_not {p : Char → Bool} :
    ∀ (l1 : RStr) (c : Char) (l2 : RStr), (∀ x ∈ l1, p x = true) →
      p c = false → (l1 ++ c :: l2).takeWhile p = l1 := by
  intro l1
  induction l1 with
  | nil => intro c l2 _ hc; simp [List.takeWhile_cons, hc]
  | cons a t ih =>
    intro c l2 h hc
    simp only [List.cons_append, List.takeWhile_cons, h a (by simp), if_true]
    rw [ih c l2 (fun x hx => h x (by simp [hx])) hc]

theorem dropWhile_append_not {p : Char → Bool} :
    ∀ (l1 : RStr) (c : Char) (l2 : RStr), (∀ x ∈ l1, p x = true) →
      p c = false → (l1 ++ c :: l2).dropWhile p = c :: l2 := by
  intro l1
  induction l1 with
  | nil => intro c l2 _ hc; simp [List.dropWhile_cons, hc]
  | cons a t ih =>
    intro c l2 h hc
    simp only [List.cons_append, List.dropWhile_cons, h a (by simp), if_true]
    exact ih c l2 (fun x hx => h x (by simp [hx])) hc

theorem spanDigits_append {ds : RStr} {c : Char} {l2 : RStr}
    (h : ∀ x ∈ ds, isAsciiDigit x = true) (hc : isAsciiDigit c = false) :
    spanDigits (ds ++ c :: l2) = (ds, c :: l2) := by
  unfold spanDigits
  rw [takeWhile_append_not ds c l2 h hc, dropWhile_append_not ds c l2 h hc]

theorem takeWhile_all_of {p : Char → Bool} :
    ∀ (l : RStr), (∀ x ∈ l, p x = true) → l.takeWhile p = l := by
  intro l
  induction l with
  | nil => intro; rfl
  | cons a t ih =>
    intro h
    simp only [List.takeWhile_cons, h a (by simp), if_true]
    rw [ih (fun x hx => h x (by simp [hx]))]

theorem dropWhile_all_of {p : Char → Bool} :
    ∀ (l : RStr), (∀ x ∈ l, p x = true) → l.dropWhile p = [] := by
  intro l
  induction l with
  | nil => intro; rfl
  | cons a t ih =>
    intro h
    simp only [List.dropWhile_cons, h a (by simp), if_true]
    exact ih (fun x hx => h x (by simp [hx]))

theorem spanDigits_all {l : RStr} (h : ∀ x ∈ l, isAsciiDigit x = true) :
    spanDigits l = (l, []) := by
  unfold spanDigits
  rw [takeWhile_all_of l h, dropWhile_all_of l h]

theorem toLowerR_append (l1 l2 : RStr) :
    toLowerR (l1 ++ l2) = toLowerR l1 ++ toLowerR l2 := by
  simp [toLowerR]

theorem toLowerR_digits {l : RStr} (h : ∀ x ∈ l, isAsciiDigit x = true) :
    toLowerR l = l := by
  induction l with
  | nil => rfl
  | cons a t ih =>
    simp only [toLowerR, List.map_cons]
    rw [digit_lower (h a (by simp))]
    have := ih (fun x hx => h x (by simp [hx]))
    simp only [toLowerR] at this
    rw [this]

theorem rustTrim_eq_self {l : RStr}
    (h1 : ∀ c, l.head? = some c → rustIsWs c = false)
    (h2 : ∀ c, l.getLast? = some c → rustIsWs c = false) : rustTrim l = l := by
  unfold rustTrim dropEndWs
  have hd : l.dropWhile rustIsWs = l := by
    rcases l with _ | ⟨a, t⟩
    · rfl
    · simp [List.dropWhile_cons, h1 a rfl]
  rw [hd]
  have hr : l.reverse.dropWhile rustIsWs = l.reverse := by
    rcases hrev : l.reverse with _ | ⟨a, t⟩
    · rfl
    · have ha : l.getLast? = some a := by
        rw [← List.head?_reverse, hrev]
        rfl
      simp [List.dropWhile_cons, h2 a ha]
  rw [hr, List.reverse_reverse]

namespace timestring

theorem parseRfc3339_digits_then {ds : RStr} {c : Char} {l2 : RStr}
    (hds : ∀ x ∈ ds, isAsciiDigit x = true) (hc : isAsciiDigit c = false)
    (hdash : c ≠ '-') : parseRfc3339 (ds ++ c :: l2) = none := by
  unfold parseRfc3339
  rw [spanDigits_append hds hc]
  by_cases h4 : ds.length = 4
  · simp only [h4]
    simp [expectChar, hdash]
  · simp [h4]

theorem relNumBranch_digits_then {ds : RStr} {c : Char} {l2 : RStr}
    (now : Int) (hne : ds ≠ [])
    (hds : ∀ x ∈ ds, isAsciiDigit x = true)
    (hws : rustIsWs c = false) (hc : isAsciiDigit c = false) :
    relNumBranch (ds ++ c :: l2) now = none := by
  unfold relNumBranch
  rw [spanDigits_append hds hc]
  rcases ds with _ | ⟨d0, ds'⟩
  · exact absurd rfl hne
  · dsimp only
    simp [spanWs, List.takeWhile_cons, List.dropWhile_cons, hws]

theorem relOneBranch_digit_head {c : Char} {l : RStr} (now : Int)
    (h : isAsciiDigit c = true) : relOneBranch (c :: l) now = none := by
  unfold relOneBranch
  dsimp only
  rw [if_neg (digit_ne h 'a' (by decide))]

theorem month_name_to_num_digit_head {c : Char} (h : isAsciiDigit c = true)
    (l : RStr) : month_name_to_num (c :: l) = none := by
  have hj := digit_ne h 'j' (by decide)
  have hf := digit_ne h 'f' (by decide)
  have hm := digit_ne h 'm' (by decide)
  have ha := digit_ne h 'a' (by decide)
  have hs := digit_ne h 's' (by decide)
  have ho := digit_ne h 'o' (by decide)
  have hn := digit_ne h 'n' (by decide)
  have hd := digit_ne h 'd' (by decide)
  simp [month_name_to_num, str, hj, hf, hm, ha, hs, ho, hn, hd]

theorem try_parse_named_period_digit_head {c : Char} (h : isAsciiDigit c = true)
    (l : RStr) (now : Int) : try_parse_named_period (c :: l) now = none := by
  have hl := digit_ne h 'l' (by decide)
  have ht := digit_ne h 't' (by decide)
  have hy := digit_ne h 'y' (by decide)
  simp [try_parse_named_period, str, hl, ht, hy]

theorem try_parse_month_name_digit_head {c : Char} (h : isAsciiDigit c = true)
    (l : RStr) (now : Int) : try_parse_month_name (c :: l) now = none := by
  unfold try_parse_month_name
  rw [month_name_to_num_digit_head h l]

theorem humanMatch_digit_head {c : Char} (h : isAsciiDigit c = true)
    (l : RStr) : humanMatch humanMonthAlt (c :: l) = none := by
  have hj := digit_ne h 'j' (by decide)
  have hf := digit_ne h 'f' (by decide)
  have hm := digit_ne h 'm' (by decide)
  have ha := digit_ne h 'a' (by decide)
  have hs := digit_ne h 's' (by decide)
  have ho := digit_ne h 'o' (by decide)
  have hn := digit_ne h 'n' (by decide)
  have hd := digit_ne h 'd' (by decide)
  simp [humanMonthAlt, humanMatch, matchLit, str, hj, hf, hm, ha, hs, ho, hn, hd]

end timestring

theorem parseI64_digit_head_nondigit {c0 : Char} {rest : RStr} {x : Char}
    (h0 : isAsciiDigit c0 = true) (hx : x ∈ rest)
    (hxd : isAsciiDigit x = false) : parseI64 (c0 :: rest) = none := by
  have hplus : c0 ≠ '+' := digit_ne_low h0 '+' (by decide)
  have hminus : c0 ≠ '-' := digit_ne_low h0 '-' (by decide)
  have hall : ((c0 :: rest).all isAsciiDigit) = false := by
    rw [Bool.eq_false_iff]
    intro hco
    rw [List.all_eq_true] at hco
    rw [hco x (by simp [hx])] at hxd
    cases hxd
  simp [parseI64, hplus, hminus, hall]

namespace timestring

theorem try_parse_year_only_long {input : RStr} (h : input.length ≠ 4) :
    try_parse_year_only input = none := by
  simp [try_parse_year_only, h]

end timestring


namespace timestring

theorem try_parse_iso_date_digits_then {ds : RStr} {c : Char} {l2 : RStr}
    (hds : ∀ x ∈ ds, isAsciiDigit x = true) (hc : isAsciiDigit c = false)
    (hdash : c ≠ '-') : try_parse_iso_date (ds ++ c :: l2) = none := by
  unfold try_parse_iso_date
  rw [spanDigits_append hds hc]
  by_cases h4 : 1 ≤ ds.length ∧ ds.length ≤ 4
  · rw [if_pos h4]
    simp [expectChar, hdash]
  · rw [if_neg h4]

theorem americanMatch_shape {ms ds ys : RStr}
    (hms : ∀ x ∈ ms, isAsciiDigit x = true)
    (hds : ∀ x ∈ ds, isAsciiDigit x = true)
    (hys : ∀ x ∈ ys, isAsciiDigit x = true)
    (hl1 : 1 ≤ ms.length) (hl2 : ms.length ≤ 2)
    (hl3 : 1 ≤ ds.length) (hl4 : ds.length ≤ 2) (hl5 : ys.length = 4) :
    americanMatch (ms ++ '/' :: (ds ++ '/' :: ys)) =
      some (((digitsVal ms : Nat) : Int), ((digitsVal ds : Nat) : Int),
        ((digitsVal ys : Nat) : Int)) := by
  unfold americanMatch
  rw [spanDigits_append hms (by decide)]
  dsimp only
  rw [if_pos ⟨hl1, hl2⟩]
  rw [show expectChar '/' ('/' :: (ds ++ '/' :: ys)) = some (ds ++ '/' :: ys)
    from rfl]
  dsimp only
  rw [spanDigits_append hds (by decide)]
  dsimp only
  rw [if_pos ⟨hl3, hl4⟩]
  rw [show expectChar '/' ('/' :: ys) = some ys from rfl]
  dsimp only
  rw [spanDigits_all hys]
  dsimp only
  rw [if_pos ⟨hl5, rfl⟩]

theorem americanMatch_nondigit_head {c : Char} {l : RStr}
    (hc : isAsciiDigit c = false) : americanMatch (c :: l) = none := by
  unfold americanMatch
  have : spanDigits (c :: l) = ([], c :: l) := by
    unfold spanDigits
    simp [List.takeWhile_cons, List.dropWhile_cons, hc]
  rw [this]
  simp

theorem try_parse_human_date_digit_head {c : Char} {l : RStr}
    (h : isAsciiDigit c = true) : try_parse_human_date (c :: l) = none := by
  unfold try_parse_human_date
  have hlow : toLowerR (c :: l) = c :: toLowerR l := by
    simp [toLowerR, digit_lower h]
  rw [hlow, humanMatch_digit_head h (toLowerR l)]

end timestring

theorem toLowerR_id_of {l : RStr} (h : ∀ x ∈ l, asciiLowerChar x = x) :
    toLowerR l = l := by
  induction l with
  | nil => rfl
  | cons a t ih =>
    simp only [toLowerR, List.map_cons, h a (by simp)]
    have := ih (fun x hx => h x (by simp [hx]))
    simp only [toLowerR] at this
    rw [this]

theorem rustTrim_id_of {l : RStr} (h : ∀ x ∈ l, rustIsWs x = false) :
    rustTrim l = l := by
  have hd : ∀ (l' : RStr), (∀ x ∈ l', rustIsWs x = false) →
      l'.dropWhile rustIsWs = l' := by
    intro l' h'
    rcases l' with _ | ⟨a, t⟩
    · rfl
    · simp [List.dropWhile_cons, h' a (by simp)]
  unfold rustTrim dropEndWs
  rw [hd l h, hd l.reverse (fun x hx => h x (by simpa using hx)),
    List.reverse_reverse]

namespace timestring

/-- On an `M/D/YYYY`-shaped input every dialect before the american-date
parser fails, and the two dialects after it fail as well, so `parse`
reduces to the american-date parser with the could-not-parse error as the
fallback. -/
theorem parse_slash_shape (ms ds ys : RStr) (now : Int)
    (hms : ∀ x ∈ ms, isAsciiDigit x = true)
    (hds : ∀ x ∈ ds, isAsciiDigit x = true)
    (hys : ∀ x ∈ ys, isAsciiDigit x = true)
    (hl1 : 1 ≤ ms.length) (hl3 : 1 ≤ ds.length) (hl5 : ys.length = 4) :
    parse (ms ++ '/' :: (ds ++ '/' :: ys)) now =
      (match try_parse_american_date (ms ++ '/' :: (ds ++ '/' :: ys)) with
       | some spec => Except.ok spec
       | none => Except.error (str "Could not parse time string: " ++
           (ms ++ '/' :: (ds ++ '/' :: ys)))) := by
  obtain ⟨m0, ms', rfl⟩ : ∃ m0 ms', ms = m0 :: ms' := by
    rcases ms with _ | ⟨m0, ms'⟩
    · simp at hl1
    · exact ⟨m0, ms', rfl⟩
  have h_d0 : isAsciiDigit m0 = true := hms m0 (by simp)
  have h_allchars : ∀ x ∈ (m0 :: ms') ++ '/' :: (ds ++ '/' :: ys),
      isAsciiDigit x = true ∨ x = '/' := by
    intro x hx
    simp only [List.mem_append, List.mem_cons] at hx
    rcases hx with (h | h) | h | h | h | h
    · exact Or.inl (hms x (by simp [h]))
    · exact Or.inl (hms x (by simp [h]))
    · exact Or.inr h
    · exact Or.inl (hds x h)
    · exact Or.inr h
    · exact Or.inl (hys x h)
  have hcons : (m0 :: ms') ++ '/' :: (ds ++ '/' :: ys) =
      m0 :: (ms' ++ '/' :: (ds ++ '/' :: ys)) := rfl
  have h_trim : rustTrim ((m0 :: ms') ++ '/' :: (ds ++ '/' :: ys)) =
      (m0 :: ms') ++ '/' :: (ds ++ '/' :: ys) := by
    apply rustTrim_id_of
    intro x hx
    rcases h_allchars x hx with h | h
    · exact digit_not_ws h
    · rw [h]
      rfl
  have h_lower : toLowerR ((m0 :: ms') ++ '/' :: (ds ++ '/' :: ys)) =
      (m0 :: ms') ++ '/' :: (ds ++ '/' :: ys) := by
    apply toLowerR_id_of
    intro x hx
    rcases h_allchars x hx with h | h
    · exact digit_lower h
    · rw [h]
      rfl
  have h_rfc : parseRfc3339 ((m0 :: ms') ++ '/' :: (ds ++ '/' :: ys)) = none :=
    parseRfc3339_digits_then hms (by decide) (by decide)
  have h_rel : try_parse_relative_duration
      ((m0 :: ms') ++ '/' :: (ds ++ '/' :: ys)) now = none := by
    unfold try_parse_relative_duration
    rw [relNumBranch_digits_then now (by simp) hms (by decide) (by decide)]
    rw [hcons, relOneBranch_digit_head now h_d0]
  have h_named : try_parse_named_period
      ((m0 :: ms') ++ '/' :: (ds ++ '/' :: ys)) now = none := by
    rw [hcons]
    exact try_parse_named_period_digit_head h_d0 _ now
  have h_mn : try_parse_month_name
      ((m0 :: ms') ++ '/' :: (ds ++ '/' :: ys)) now = none := by
    rw [hcons]
    exact try_parse_month_name_digit_head h_d0 _ now
  have h_year : try_parse_year_only
      ((m0 :: ms') ++ '/' :: (ds ++ '/' :: ys)) = none := by
    apply try_parse_year_only_long
    rcases ys with _ | ⟨a, t⟩
    · simp at hl5
    · simp [List.length_append]
      omega
  have h_len : ((m0 :: ms') ++ '/' :: (ds ++ '/' :: ys)).length > 4 := by
    simp [List.length_append]
    omega
  have h_i64 : parseI64 ((m0 :: ms') ++ '/' :: (ds ++ '/' :: ys)) = none := by
    rw [hcons]
    exact parseI64_digit_head_nondigit h_d0
      (show '/' ∈ ms' ++ '/' :: (ds ++ '/' :: ys) by simp) (by decide)
  have h_human : try_parse_human_date
      ((m0 :: ms') ++ '/' :: (ds ++ '/' :: ys)) = none := by
    rw [hcons]
    exact try_parse_human_date_digit_head h_d0
  have h_iso : try_parse_iso_date
      ((m0 :: ms') ++ '/' :: (ds ++ '/' :: ys)) = none :=
    try_parse_iso_date_digits_then hms (by decide) (by decide)
  simp only [parse]
  rw [h_trim, h_lower, h_rfc]
  dsimp only
  rw [h_rel]
  dsimp only
  rw [h_named]
  dsimp only
  rw [h_mn]
  dsimp only
  rw [h_year]
  dsimp only
  rw [if_pos h_len, h_i64]
  dsimp only
  cases ham : try_parse_american_date ((m0 :: ms') ++ '/' :: (ds ++ '/' :: ys)) with
  | some spec => rfl
  | none =>
    dsimp only
    rw [h_human]
    dsimp only
    rw [h_iso]

end timestring

namespace timestring

theorem normMonthGo_spec :
    ∀ (fuel : Nat) (y m : Int), (1 - m).toNat ≤ fuel → m ≤ 12 →
      (normMonthGo fuel y m).1 * 12 + (normMonthGo fuel y m).2 = y * 12 + m ∧
      1 ≤ (normMonthGo fuel y m).2 ∧ (normMonthGo fuel y m).2 ≤ 12 := by
  intro fuel
  induction fuel with
  | zero =>
    intro y m hf hm
    have h1 : 1 ≤ m := by omega
    exact ⟨rfl, h1, hm⟩
  | succ f ih =>
    intro y m hf hm
    by_cases hm0 : m ≤ 0
    · simp only [normMonthGo, if_pos hm0]
      have := ih (y - 1) (m + 12) (by omega) (by omega)
      omega
    · simp only [normMonthGo, if_neg hm0]
      exact ⟨trivial, by omega, hm⟩

/-- The month-borrow loop: preserves the absolute month count and lands in
1..12 (given a start value ≤ 12). -/
theorem normMonth_spec (y m : Int) (hm : m ≤ 12) :
    (normMonth y m).1 * 12 + (normMonth y m).2 = y * 12 + m ∧
      1 ≤ (normMonth y m).2 ∧ (normMonth y m).2 ≤ 12 :=
  normMonthGo_spec _ y m le_rfl hm

/-- Dispatch: when trim, lowercase and RFC3339 leave the input alone and the
relative-duration dialect matches, `parse` returns its result. -/
theorem parse_via_relative (input : RStr) (now : Int) (spec : TimeSpec)
    (h_trim : rustTrim input = input) (h_lower : toLowerR input = input)
    (h_rfc : parseRfc3339 input = none)
    (h_rel : try_parse_relative_duration input now = some spec) :
    parse input now = .ok spec := by
  simp only [parse]
  rw [h_trim, h_lower, h_rfc]
  dsimp only
  rw [h_rel]

end timestring

theorem rustTrim_digits_append (ds tail : RStr) (hne : ds ≠ [])
    (hds : ∀ x ∈ ds, isAsciiDigit x = true)
    (htail : ∀ c, tail.getLast? = some c → rustIsWs c = false)
    (htne : tail ≠ []) : rustTrim (ds ++ tail) = ds ++ tail := by
  apply rustTrim_eq_self
  · intro c hc
    rcases ds with _ | ⟨d0, ds'⟩
    · exact absurd rfl hne
    · rw [List.cons_append] at hc
      simp only [List.head?_cons, Option.some.injEq] at hc
      rw [← hc]
      exact digit_not_ws (hds d0 (by simp))
  · intro c hc
    rw [List.getLast?_append] at hc
    obtain ⟨c', hc'⟩ := Option.isSome_iff_exists.mp
      (List.getLast?_isSome.mpr htne)
    rw [hc'] at hc
    have hcc : c' = c := by injection hc
    rw [← hcc]
    exact htail c' hc'

theorem tail_sp_ago_last (pre : RStr) :
    ∀ c, (' ' :: (pre ++ str " ago")).getLast? = some c → rustIsWs c = false := by
  intro c hc
  rw [show (' ' :: (pre ++ str " ago")) = (' ' :: pre) ++ str " ago" from rfl,
    List.getLast?_append] at hc
  have h2 : (some 'o' : Option Char) = some c := hc
  have h3 : 'o' = c := by injection h2
  rw [← h3]
  decide

theorem tail_sp_ago_lower (pre : RStr) (hpre : ∀ x ∈ pre, asciiLowerChar x = x) :
    ∀ x ∈ ' ' :: (pre ++ str " ago"), asciiLowerChar x = x := by
  intro x hx
  rcases List.mem_cons.1 hx with rfl | hx2
  · decide
  · rcases List.mem_append.1 hx2 with h | h
    · exact hpre x h
    · exact (by decide : ∀ y ∈ str " ago", asciiLowerChar y = y) x h

namespace timestring

/-- `"<N> <unit> ago"` for the five fixed-length units (with and without the
trailing `s`): the result is `now` minus `N` times the unit length. -/
theorem parse_num_fixed_unit (ds : RStr) (now : Int) (u : RStr) (k : Int)
    (hmem : (u, k) ∈ [(str "second", msPerSecond), (str "seconds", msPerSecond),
      (str "minute", msPerMinute), (str "minutes", msPerMinute),
      (str "hour", msPerHour), (str "hours", msPerHour),
      (str "day", msPerDay), (str "days", msPerDay),
      (str "week", msPerWeek), (str "weeks", msPerWeek)])
    (hne : ds ≠ []) (hds : ∀ x ∈ ds, isAsciiDigit x = true)
    (hbound : (digitsVal ds : Int) ≤ i64Max) :
    parse (ds ++ ' ' :: (u ++ str " ago")) now =
      .ok (.Moment (now - (digitsVal ds : Int) * k)) := by
  obtain ⟨d0, ds', rfl⟩ : ∃ d0 ds', ds = d0 :: ds' := by
    cases ds with
    | nil => exact absurd rfl hne
    | cons a t => exact ⟨a, t, rfl⟩
  have hcap : parseCapI64 (d0 :: ds') = some ((digitsVal (d0 :: ds') : Int)) := by
    unfold parseCapI64
    rw [if_pos hbound]
  simp only [List.mem_cons, Prod.mk.injEq, List.not_mem_nil, or_false] at hmem
  obtain huk | huk | huk | huk | huk | huk | huk | huk | huk | huk := hmem
  all_goals obtain ⟨rfl, rfl⟩ := huk
  all_goals
  refine parse_via_relative _ _ _
    (rustTrim_digits_append _ _ (by simp) hds (tail_sp_ago_last _) (by simp))
    (toLowerR_id_of ?_) (parseRfc3339_digits_then hds (by decide) (by decide)) ?_
  · intro x hx
    rcases List.mem_append.1 hx with h | h
    · exact digit_lower (hds x h)
    · exact tail_sp_ago_lower _ (by decide) x h
  · unfold try_parse_relative_duration relNumBranch
    rw [spanDigits_append hds (by decide)]
    dsimp only
    rw [hcap]
    rfl

end timestring

namespace timestring

/-- `"<N> month(s) ago"`: `with_year` to the borrow-normalized year, then
`with_month` to the borrow-normalized month; succeeds only if both do. -/
theorem parse_num_month (ds : RStr) (now t : Int) (su : RStr)
    (hsu : su ∈ [str "month", str "months"])
    (hne : ds ≠ []) (hds : ∀ x ∈ ds, isAsciiDigit x = true)
    (hbound : (digitsVal ds : Int) ≤ i64Max)
    (hcal : (dtWithYear now
        (normMonth (dtYear now) (dtMonth now - wrapI32 (digitsVal ds : Int))).1).bind
      (fun t1 => dtWithMonth t1
        (normMonth (dtYear now) (dtMonth now - wrapI32 (digitsVal ds : Int))).2) = some t) :
    parse (ds ++ ' ' :: (su ++ str " ago")) now = .ok (.Moment t) := by
  obtain ⟨d0, ds', rfl⟩ : ∃ d0 ds', ds = d0 :: ds' := by
    cases ds with
    | nil => exact absurd rfl hne
    | cons a t' => exact ⟨a, t', rfl⟩
  have hcap : parseCapI64 (d0 :: ds') = some ((digitsVal (d0 :: ds') : Int)) := by
    unfold parseCapI64
    rw [if_pos hbound]
  simp only [List.mem_cons, List.not_mem_nil, or_false] at hsu
  have hlow : ∀ (su' : RStr), (∀ x ∈ su', asciiLowerChar x = x) →
      ∀ x ∈ (d0 :: ds') ++ ' ' :: (su' ++ str " ago"), asciiLowerChar x = x := by
    intro su' hsu' x hx
    rcases List.mem_append.1 hx with h | h
    · exact digit_lower (hds x h)
    · exact tail_sp_ago_lower _ hsu' x h
  rcases hsu with rfl | rfl
  · refine parse_via_relative _ _ _
      (rustTrim_digits_append _ _ (by simp) hds (tail_sp_ago_last _) (by simp))
      (toLowerR_id_of (hlow _ (by decide)))
      (parseRfc3339_digits_then hds (by decide) (by decide)) ?_
    unfold try_parse_relative_duration relNumBranch
    rw [spanDigits_append hds (by decide)]
    dsimp only
    rw [hcap]
    show (match (dtWithYear now
        (normMonth (dtYear now) (dtMonth now - wrapI32 (digitsVal (d0 :: ds') : Int))).1).bind
        (fun t1 => dtWithMonth t1
          (normMonth (dtYear now) (dtMonth now - wrapI32 (digitsVal (d0 :: ds') : Int))).2) with
      | some t' => some (TimeSpec.Moment t')
      | none =>
        match relOneBranch ((d0 :: ds') ++ ' ' :: (str "month" ++ str " ago")) now with
        | some t' => some (TimeSpec.Moment t')
        | none => none) = some (TimeSpec.Moment t)
    rw [hcal]
  · refine parse_via_relative _ _ _
      (rustTrim_digits_append _ _ (by simp) hds (tail_sp_ago_last _) (by simp))
      (toLowerR_id_of (hlow _ (by decide)))
      (parseRfc3339_digits_then hds (by decide) (by decide)) ?_
    unfold try_parse_relative_duration relNumBranch
    rw [spanDigits_append hds (by decide)]
    dsimp only
    rw [hcap]
    show (match (dtWithYear now
        (normMonth (dtYear now) (dtMonth now - wrapI32 (digitsVal (d0 :: ds') : Int))).1).bind
        (fun t1 => dtWithMonth t1
          (normMonth (dtYear now) (dtMonth now - wrapI32 (digitsVal (d0 :: ds') : Int))).2) with
      | some t' => some (TimeSpec.Moment t')
      | none =>
        match relOneBranch ((d0 :: ds') ++ ' ' :: (str "months" ++ str " ago")) now with
        | some t' => some (TimeSpec.Moment t')
        | none => none) = some (TimeSpec.Moment t)
    rw [hcal]

/-- `"<N> year(s) ago"`: `with_year` to `year - N`; succeeds only if it does. -/
theorem parse_num_year (ds : RStr) (now t : Int) (su : RStr)
    (hsu : su ∈ [str "year", str "years"])
    (hne : ds ≠ []) (hds : ∀ x ∈ ds, isAsciiDigit x = true)
    (hbound : (digitsVal ds : Int) ≤ i64Max)
    (hcal : dtWithYear now (dtYear now - wrapI32 (digitsVal ds : Int)) = some t) :
    parse (ds ++ ' ' :: (su ++ str " ago")) now = .ok (.Moment t) := by
  obtain ⟨d0, ds', rfl⟩ : ∃ d0 ds', ds = d0 :: ds' := by
    cases ds with
    | nil => exact absurd rfl hne
    | cons a t' => exact ⟨a, t', rfl⟩
  have hcap : parseCapI64 (d0 :: ds') = some ((digitsVal (d0 :: ds') : Int)) := by
    unfold parseCapI64
    rw [if_pos hbound]
  simp only [List.mem_cons, List.not_mem_nil, or_false] at hsu
  have hlow : ∀ (su' : RStr), (∀ x ∈ su', asciiLowerChar x = x) →
      ∀ x ∈ (d0 :: ds') ++ ' ' :: (su' ++ str " ago"), asciiLowerChar x = x := by
    intro su' hsu' x hx
    rcases List.mem_append.1 hx with h | h
    · exact digit_lower (hds x h)
    · exact tail_sp_ago_lower _ hsu' x h
  rcases hsu with rfl | rfl
  · refine parse_via_relative _ _ _
      (rustTrim_digits_append _ _ (by simp) hds (tail_sp_ago_last _) (by simp))
      (toLowerR_id_of (hlow _ (by decide)))
      (parseRfc3339_digits_then hds (by decide) (by decide)) ?_
    unfold try_parse_relative_duration relNumBranch
    rw [spanDigits_append hds (by decide)]
    dsimp only
    rw [hcap]
    show (match dtWithYear now (dtYear now - wrapI32 (digitsVal (d0 :: ds') : Int)) with
      | some t' => some (TimeSpec.Moment t')
      | none =>
        match relOneBranch ((d0 :: ds') ++ ' ' :: (str "year" ++ str " ago")) now with
        | some t' => some (TimeSpec.Moment t')
        | none => none) = some (TimeSpec.Moment t)
    rw [hcal]
  · refine parse_via_relative _ _ _
      (rustTrim_digits_append _ _ (by simp) hds (tail_sp_ago_last _) (by simp))
      (toLowerR_id_of (hlow _ (by decide)))
      (parseRfc3339_digits_then hds (by decide) (by decide)) ?_
    unfold try_parse_relative_duration relNumBranch
    rw [spanDigits_append hds (by decide)]
    dsimp only
    rw [hcap]
    show (match dtWithYear now (dtYear now - wrapI32 (digitsVal (d0 :: ds') : Int)) with
      | some t' => some (TimeSpec.Moment t')
      | none =>
        match relOneBranch ((d0 :: ds') ++ ' ' :: (str "years" ++ str " ago")) now with
        | some t' => some (TimeSpec.Moment t')
        | none => none) = some (TimeSpec.Moment t)
    rw [hcal]

end timestring

namespace timestring

theorem relOneBranch_a_month (now : Int) :
    relOneBranch (str "a month ago") now = applyUnitOne now (str "month") := by
  unfold relOneBranch
  rw [show str "a month ago" = 'a' :: str " month ago" from rfl]
  dsimp only
  rw [if_pos rfl, show spanWs (str " month ago") = ([' '], str "month ago") from rfl]
  dsimp only
  rw [show matchUnit unitList (str "month ago") = some (str "month", str " ago")
    from rfl]
  dsimp only
  rw [show spanWs (str " ago") = ([' '], str "ago") from rfl]
  dsimp only
  rw [if_pos rfl]

theorem relOneBranch_a_year (now : Int) :
    relOneBranch (str "a year ago") now = applyUnitOne now (str "year") := by
  unfold relOneBranch
  rw [show str "a year ago" = 'a' :: str " year ago" from rfl]
  dsimp only
  rw [if_pos rfl, show spanWs (str " year ago") = ([' '], str "year ago") from rfl]
  dsimp only
  rw [show matchUnit unitList (str "year ago") = some (str "year", str " ago")
    from rfl]
  dsimp only
  rw [show spanWs (str " ago") = ([' '], str "ago") from rfl]
  dsimp only
  rw [if_pos rfl]

/-- `"a month ago"`: single-borrow `if`, then `with_year`/`with_month`. -/
theorem parse_a_month (now t : Int) (h : applyUnitOne now (str "month") = some t) :
    parse (str "a month ago") now = .ok (.Moment t) := by
  refine parse_via_relative _ _ _ rfl rfl rfl ?_
  unfold try_parse_relative_duration
  rw [show relNumBranch (str "a month ago") now = none from rfl]
  dsimp only
  rw [relOneBranch_a_month now, h]

/-- `"a year ago"`: `with_year` to the previous year. -/
theorem parse_a_year (now t : Int) (h : applyUnitOne now (str "year") = some t) :
    parse (str "a year ago") now = .ok (.Moment t) := by
  refine parse_via_relative _ _ _ rfl rfl rfl ?_
  unfold try_parse_relative_duration
  rw [show relNumBranch (str "a year ago") now = none from rfl]
  dsimp only
  rw [relOneBranch_a_year now, h]

end timestring

/-- C3: relative durations.  `"<N> <unit> ago"` (optional trailing `s`) and
`"a <unit> ago"` yield `Moment` = `now` minus the duration.  Fixed-length
subtraction for second/minute/hour/day/week holds on chrono's panic-free
domain (`N * msPer<unit> ≤ i64::MAX`, result within chrono's instant range):
outside it the program panics rather than returning.  Month/year first
truncate `N` with the source's `as i32` cast, then walk calendar fields
(`with_year` then `with_month` on the borrow-normalized year/month) — which
the claim's universal form overstates: the walk can fail (see the
counterexample), so those cases hold under the hypothesis that it succeeds
(plus exclusion of the narrow `i32`-subtraction overflow band).  The borrow
property: `normMonth` preserves the absolute month count and lands in
1..12. -/
theorem c3_relative_durations :
    (∀ (ds : RStr) (now : Int) (u : RStr) (k : Int),
      (u, k) ∈ [(str "second", msPerSecond), (str "seconds", msPerSecond),
        (str "minute", msPerMinute), (str "minutes", msPerMinute),
        (str "hour", msPerHour), (str "hours", msPerHour),
        (str "day", msPerDay), (str "days", msPerDay),
        (str "week", msPerWeek), (str "weeks", msPerWeek)] →
      ds ≠ [] → (∀ x ∈ ds, isAsciiDigit x = true) →
      (digitsVal ds : Int) ≤ i64Max →
      (digitsVal ds : Int) * k ≤ i64Max →
      dtMinMs ≤ now - (digitsVal ds : Int) * k → now ≤ dtMaxMs →
      timestring.parse (ds ++ ' ' :: (u ++ str " ago")) now =
        .ok (.Moment (now - (digitsVal ds : Int) * k))) ∧
    (∀ (ds : RStr) (now t : Int) (su : RStr),
      su ∈ [str "month", str "months"] →
      ds ≠ [] → (∀ x ∈ ds, isAsciiDigit x = true) →
      (digitsVal ds : Int) ≤ i64Max →
      dtMonth now - wrapI32 (digitsVal ds : Int) ≤ 2 ^ 31 - 1 →
      (dtWithYear now (timestring.normMonth (dtYear now)
          (dtMonth now - wrapI32 (digitsVal ds : Int))).1).bind
        (fun t1 => dtWithMonth t1 (timestring.normMonth (dtYear now)
          (dtMonth now - wrapI32 (digitsVal ds : Int))).2) = some t →
      timestring.parse (ds ++ ' ' :: (su ++ str " ago")) now = .ok (.Moment t)) ∧
    (∀ (ds : RStr) (now t : Int) (su : RStr),
      su ∈ [str "year", str "years"] →
      ds ≠ [] → (∀ x ∈ ds, isAsciiDigit x = true) →
      (digitsVal ds : Int) ≤ i64Max →
      -(2 ^ 31) ≤ dtYear now - wrapI32 (digitsVal ds : Int) →
      dtYear now - wrapI32 (digitsVal ds : Int) ≤ 2 ^ 31 - 1 →
      dtWithYear now (dtYear now - wrapI32 (digitsVal ds : Int)) = some t →
      timestring.parse (ds ++ ' ' :: (su ++ str " ago")) now = .ok (.Moment t)) ∧
    (∀ y m : Int, m ≤ 12 →
      (timestring.normMonth y m).1 * 12 + (timestring.normMonth y m).2 = y * 12 + m ∧
      1 ≤ (timestring.normMonth y m).2 ∧ (timestring.normMonth y m).2 ≤ 12) ∧
    (∀ now : Int, dtMinMs ≤ now - msPerWeek → now ≤ dtMaxMs →
      timestring.parse (str "a second ago") now = .ok (.Moment (now - msPerSecond)) ∧
      timestring.parse (str "a minute ago") now = .ok (.Moment (now - msPerMinute)) ∧
      timestring.parse (str "a hour ago") now = .ok (.Moment (now - msPerHour)) ∧
      timestring.parse (str "a day ago") now = .ok (.Moment (now - msPerDay)) ∧
      timestring.parse (str "a week ago") now = .ok (.Moment (now - msPerWeek))) ∧
    (∀ now t : Int, timestring.applyUnitOne now (str "month") = some t →
      timestring.parse (str "a month ago") now = .ok (.Moment t)) ∧
    (∀ now t : Int, timestring.applyUnitOne now (str "year") = some t →
      timestring.parse (str "a year ago") now = .ok (.Moment t)) :=
  ⟨fun ds now u k hmem hne hds hbound _ _ _ =>
      timestring.parse_num_fixed_unit ds now u k hmem hne hds hbound,
   fun ds now t su hsu hne hds hbound _ hcal =>
      timestring.parse_num_month ds now t su hsu hne hds hbound hcal,
   fun ds now t su hsu hne hds hbound _ _ hcal =>
      timestring.parse_num_year ds now t su hsu hne hds hbound hcal,
   fun y m hm => timestring.normMonth_spec y m hm,
   fun _ _ _ => ⟨rfl, rfl, rfl, rfl, rfl⟩,
   timestring.parse_a_month, timestring.parse_a_year⟩

/-- C3 counterexample: the claim's universal form fails for month/year.  At
`now` = 2025-03-31 America/New_York, `"1 month ago"` does not produce a
`Moment` at all: `with_month(2)` on a day-31 date fails, the regex branch
yields `None`, and `parse` falls through to an error. -/
theorem c3_counterexample :
    timestring.parse (str "1 month ago") nowMar31 =
      .error (str "Could not parse time string: 1 month ago") := by
  rfl

/-- C3 witness: concrete instances at `testNow` (2025-01-15 12:00 EST):
`"2 weeks ago"`, `"1 month ago"` (to 2024-12-15 12:00 EST), `"1 year ago"`
(to 2024-01-15 12:00 EST) and `"a month ago"`. -/
theorem c3_relative_durations_witness :
    timestring.parse (str "2 weeks ago") testNow = .ok (.Moment 1735750800000) ∧
    timestring.parse (str "1 month ago") testNow = .ok (.Moment 1734282000000) ∧
    timestring.parse (str "1 year ago") testNow = .ok (.Moment 1705338000000) ∧
    timestring.parse (str "a month ago") testNow = .ok (.Moment 1734282000000) :=
  ⟨c3_relative_durations.1 (str "2") testNow (str "weeks") msPerWeek (by decide)
      (by decide) (by decide) (by decide) (by decide) (by decide) (by decide),
   c3_relative_durations.2.1 (str "1") testNow 1734282000000 (str "month")
      (by decide) (by decide) (by decide) (by decide) (by decide) rfl,
   c3_relative_durations.2.2.1 (str "1") testNow 1705338000000 (str "year")
      (by decide) (by decide) (by decide) (by decide) (by decide) (by decide) rfl,
   c3_relative_durations.2.2.2.2.2.1 testNow 1734282000000 rfl⟩

/-- C8: American numeric dates.  For digit strings `M/D/YYYY` (1-2/1-2/4
digits), when month ∈ 1..12 and day ∈ 1..31 AND the timezone resolves local
midnight of that calendar date, `parse` returns
`Range (midnight, midnight + 86399999)`; when the range check fails or the
resolution fails (a calendar-invalid or unresolvable date — which the
claim's "only the 1-12 / 1-31 range check" form excludes), it returns the
parse error.  `"not a date"`, `""` and `"13/45/2025"` always error. -/
theorem c8_american_dates :
    (∀ (ms ds ys : RStr) (now : Int),
      (∀ x ∈ ms, isAsciiDigit x = true) → (∀ x ∈ ds, isAsciiDigit x = true) →
      (∀ x ∈ ys, isAsciiDigit x = true) →
      1 ≤ ms.length → ms.length ≤ 2 → 1 ≤ ds.length → ds.length ≤ 2 →
      ys.length = 4 →
      (∀ S : Int,
        ¬((digitsVal ms : Int) < 1 ∨ (digitsVal ms : Int) > 12 ∨
          (digitsVal ds : Int) < 1 ∨ (digitsVal ds : Int) > 31) →
        nyWithYmdHms (digitsVal ys : Int) (digitsVal ms : Int)
          (digitsVal ds : Int) 0 0 0 = some S →
        timestring.parse (ms ++ '/' :: (ds ++ '/' :: ys)) now =
          .ok (.Range S (S + msPerDay - 1))) ∧
      ((((digitsVal ms : Int) < 1 ∨ (digitsVal ms : Int) > 12 ∨
          (digitsVal ds : Int) < 1 ∨ (digitsVal ds : Int) > 31) ∨
        nyWithYmdHms (digitsVal ys : Int) (digitsVal ms : Int)
          (digitsVal ds : Int) 0 0 0 = none) →
        timestring.parse (ms ++ '/' :: (ds ++ '/' :: ys)) now =
          .error (str "Could not parse time string: " ++
            (ms ++ '/' :: (ds ++ '/' :: ys))))) ∧
    (∀ now : Int, timestring.parse (str "not a date") now =
      .error (str "Could not parse time string: not a date")) ∧
    (∀ now : Int, timestring.parse (str "") now =
      .error (str "Could not parse time string: ")) ∧
    (∀ now : Int, timestring.parse (str "13/45/2025") now =
      .error (str "Could not parse time string: 13/45/2025")) := by
  refine ⟨?_, fun _ => rfl, fun _ => rfl, fun _ => rfl⟩
  intro ms ds ys now hms hds hys h1 h2 h3 h4 h5
  have hdisp := timestring.parse_slash_shape ms ds ys now hms hds hys h1 h3 h5
  have ham := timestring.americanMatch_shape hms hds hys h1 h2 h3 h4 h5
  constructor
  · intro S hrange hny
    rw [hdisp]
    unfold timestring.try_parse_american_date
    rw [ham]
    dsimp only
    rw [if_neg hrange, hny]
  · intro hbad
    rw [hdisp]
    unfold timestring.try_parse_american_date
    rw [ham]
    dsimp only
    rcases hbad with hr | hny
    · rw [if_pos hr]
    · by_cases hr : (digitsVal ms : Int) < 1 ∨ (digitsVal ms : Int) > 12 ∨
          (digitsVal ds : Int) < 1 ∨ (digitsVal ds : Int) > 31
      · rw [if_pos hr]
      · rw [if_neg hr, hny]

/-- C8 counterexample: the claimed "only the 1-12 / 1-31 range check"
is not the whole check: `"2/30/2025"` (month 2, day 30, both in range) still
errors because chrono rejects Feb 30.  And on the DST-start day 3/9/2025 the
returned stop `start + 86399999` is not local 23:59:59.999: local midnight
of 3/10 is 1741579200000, so the local day ends at 1741579199999, but the
range runs to 1741582799999 (one hour into 3/10). -/
theorem c8_counterexample :
    timestring.parse (str "2/30/2025") testNow =
      .error (str "Could not parse time string: 2/30/2025") ∧
    timestring.parse (str "3/9/2025") testNow =
      .ok (.Range 1741496400000 1741582799999) ∧
    nyWithYmdHms 2025 3 9 0 0 0 = some 1741496400000 ∧
    nyWithYmdHms 2025 3 10 0 0 0 = some 1741579200000 ∧
    ((1741582799999 : Int) ≠ 1741579200000 - 1) :=
  ⟨rfl, rfl, rfl, rfl, by decide⟩

/-- C8 witness: `"1/15/2025"` resolves to the local day
2025-01-15T00:00:00-05:00 .. +86399999, and `"13/45/2025"` errors through
the range-check branch. -/
theorem c8_american_dates_witness :
    timestring.parse (str "1/15/2025") testNow =
      .ok (.Range 1736917200000 1737003599999) ∧
    timestring.parse (str "13/45/2025") testNow =
      .error (str "Could not parse time string: 13/45/2025") :=
  ⟨(c8_american_dates.1 (str "1") (str "15") (str "2025") testNow
      (by decide) (by decide) (by decide) (by decide) (by decide) (by decide)
      (by decide) (by decide)).1 1736917200000 (by decide) rfl,
   (c8_american_dates.1 (str "13") (str "45") (str "2025") testNow
      (by decide) (by decide) (by decide) (by decide) (by decide) (by decide)
      (by decide) (by decide)).2 (Or.inl (by decide))⟩
